import Mathlib

/-!
Verification development for the golden reactive document engine
(crates golden_core and golden_schema).

The Rust sources are shallowly embedded as executable Lean definitions:

 - HashMap and SlotMap containers are modelled as association lists;
   SlotMap key allocation is modelled by a fresh-key counter (keys are
   never reused, matching the generational keys of the source).
 - Uuid::new_v4() is modelled by drawing from a fresh counter carried in
   the engine state (the source only needs freshness of UUIDs).
 - f64 payloads are abstracted as Int; the only operation the engine
   performs on them is PartialEq, which on non-NaN floats is equality.
 - Rust loops that follow node links (sibling chains, parent chains) are
   given explicit fuel so that they are total in Lean; on well-formed
   trees the fuel bounds below are never reached, on corrupted (cyclic)
   stores the source would loop forever where the model stops.
 - Behaviours (trait objects in the source) are modelled as pure
   functions from the process context to the list of edit requests they
   push into ctx.edits.
 - The source iterates HashMaps in unspecified order when collecting the
   set of nodes with non-empty inboxes; the model keeps association-list
   (insertion) order, which is one of the realizable orders, and the
   core drain function is additionally parameterized by an arbitrary
   order list so that theorems can quantify over every schedule.
-/

/-- Node identifiers (source: NodeId(pub u64), slotmap key bits). -/
abbrev NodeId := Nat

/-- Logical event time, lexicographically ordered by tick, micro, seq
(source: EventTime with derived Ord). -/
structure EventTime where
  tick : Nat
  micro : Nat
  seq : Nat
deriving DecidableEq, Repr

/-- The strict order derived by Ord on EventTime: lexicographic on
(tick, micro, seq). -/
def EventTime.ltb (a b : EventTime) : Bool :=
  a.tick < b.tick ||
    (a.tick == b.tick && (a.micro < b.micro ||
      (a.micro == b.micro && a.seq < b.seq)))

/-- Tagged value sum (source: golden_schema::Value). The Float, Vec2,
Vec3 and ColorRgba components abstract f64 as Int. -/
inductive Value where
  | bool (b : Bool)
  | int (i : Int)
  | float (f : Int)
  | string (s : String)
  | vec2 (x y : Int)
  | vec3 (x y z : Int)
  | colorRgba (r g b a : Int)
  | trigger
  | enum (enum_id : String) (variant : String)
  | reference (uuid : Nat) (cached_id : Option NodeId)
deriving DecidableEq, Repr

inductive UpdatePolicy where
  | immediate
  | endOfTick
  | nextTick
deriving DecidableEq, Repr

inductive ChangePolicy where
  | valueChange
  | always
deriving DecidableEq, Repr

inductive SavePolicy where
  | none
  | delta
  | full
deriving DecidableEq, Repr

/-- Source: golden_schema::ValueConstraints. Numeric bounds abstract f64
as Int in the float case. -/
inductive ValueConstraints where
  | none
  | int (min max : Option Int) (clamp : Bool) (step : Option Int)
  | float (min max : Option Int) (clamp : Bool) (step : Option Int)
  | string (max_len : Option Nat) (pattern : Option String)
  | enum (enum_id : String) (allowed : List String)
  | reference (target : Option String)
deriving DecidableEq, Repr

/-- Source: golden_schema::ParameterData. -/
structure ParameterData where
  value : Value
  default : Option Value
  read_only : Bool
  update : UpdatePolicy
  save : SavePolicy
  change : ChangePolicy
  constraints : ValueConstraints
deriving DecidableEq, Repr

structure SemanticsHint where
  intent : Option String := none
  unit : Option String := none
deriving DecidableEq, Repr

structure PresentationHint where
  widget : Option String := none
deriving DecidableEq, Repr

/-- Source: golden_schema::NodeMeta. uuid abstracts Uuid as Nat. -/
structure NodeMeta where
  uuid : Nat
  decl_id : String
  short_name : String
  enabled : Bool
  label : String
  description : Option String
  tags : List String
  semantics : SemanticsHint
  presentation : PresentationHint
deriving DecidableEq, Repr

/-- Source: golden_schema::NodeMetaPatch (description is option-of-option). -/
structure NodeMetaPatch where
  enabled : Option Bool := none
  label : Option String := none
  description : Option (Option String) := none
  tags : Option (List String) := none
  semantics : Option SemanticsHint := none
  presentation : Option PresentationHint := none
deriving DecidableEq, Repr

/-- Source: golden_schema::EventKind. -/
inductive EventKind where
  | paramChanged (param : NodeId) (value : Value)
  | childAdded (parent child : NodeId)
  | childRemoved (parent child : NodeId)
  | childReplaced (parent old new : NodeId)
  | childMoved (child old_parent new_parent : NodeId)
  | childReordered (parent child : NodeId)
  | nodeCreated (node : NodeId)
  | nodeDeleted (node : NodeId)
  | metaChanged (node : NodeId) (patch : NodeMetaPatch)
deriving DecidableEq, Repr

structure Event where
  time : EventTime
  kind : EventKind
deriving DecidableEq, Repr

/-- Source: golden_core::edits::Propagation. -/
inductive Propagation where
  | immediate
  | endOfTick
  | nextTick
deriving DecidableEq, Repr

inductive EditOrigin where
  | ui
  | network
  | script
  | internal
deriving DecidableEq, Repr

inductive NodeExecution where
  | passive
  | reactive
  | continuous
deriving DecidableEq, Repr

/-- Source: golden_core::edits::Edit. -/
inductive Edit where
  | setParam (node : NodeId) (value : Value)
  | patchMeta (node : NodeId) (patch : NodeMetaPatch)
  | instantiateChildFromManager (manager : NodeId) (node_type : String)
      (label : String) (execution : NodeExecution)
deriving DecidableEq, Repr

structure EditRequest where
  edit : Edit
  propagation : Propagation
  origin : EditOrigin
deriving DecidableEq, Repr

/-- Source: golden_core::engine::EnginePhase. -/
inductive EnginePhase where
  | engineTick
  | endOfTickStabilization
  | flushImmediate
deriving DecidableEq, Repr

/-- Source: golden_core::events::routing::subscriptions::EventFilter. -/
inductive EventFilter where
  | node (id : NodeId)
  | param (id : NodeId)
  | subtree (root : NodeId)
  | kind (k : EventKind)
  | paramChanged (param : Option NodeId)
  | childAdded (parent child : Option NodeId)
  | childRemoved (parent child : Option NodeId)
  | childReplaced (parent old new : Option NodeId)
  | childMoved (child old_parent new_parent : Option NodeId)
  | childReordered (parent child : Option NodeId)
  | nodeCreated (node : Option NodeId)
  | nodeDeleted (node : Option NodeId)
  | metaChanged (node : Option NodeId)
  | any (filters : List EventFilter)
  | all (filters : List EventFilter)
deriving Repr

inductive DeliveryMode where
  | raw
  | summarized
deriving DecidableEq, Repr

structure ListenerSpec where
  subscriber : NodeId
  filter : EventFilter
  delivery : DeliveryMode

/-- Source: golden_core::data::AllowedTypes. -/
inductive AllowedTypes where
  | anyType
  | only (types : List String)
deriving DecidableEq, Repr

inductive FolderPolicy where
  | forbidden
  | allowed
deriving DecidableEq, Repr

structure ContainerLimits where
  max_children : Option Nat
deriving DecidableEq, Repr

structure ContainerData where
  allowed_types : AllowedTypes
  folders : FolderPolicy
  limits : ContainerLimits
deriving DecidableEq, Repr

/-- Source: golden_core::schema::InboxBehavior. -/
inductive InboxBehavior where
  | coalesce
  | append
deriving DecidableEq, Repr

/-- Source: golden_core::schema::ParamDecl. -/
structure ParamDecl where
  decl_id : String
  default : Value
  constraints : ValueConstraints
  read_only : Bool
  update : UpdatePolicy
  change : ChangePolicy
  save : SavePolicy
  semantics : SemanticsHint
  presentation : PresentationHint
  folder : Option String
  behavior : InboxBehavior
  alias_name : Option String
deriving Repr

/-- Source: golden_core::schema::FolderDecl (alias_prefix renamed alias_pfx). -/
structure FolderDecl where
  decl_id : String
  label : Option String
  alias_pfx : Option String
deriving Repr

structure DeclaredChild where
  decl_id : String
  node_type : String
  default_label : Option String
  default_enabled : Bool
deriving DecidableEq, Repr

structure PotentialSlot where
  decl_id : String
  allowed_types : List String
deriving DecidableEq, Repr

structure ContainerDecl where
  allowed_types : AllowedTypes
  folders : FolderPolicy
deriving DecidableEq, Repr

/-- Source: golden_core::schema::NodeSchema. -/
structure NodeSchema where
  declared_children : List DeclaredChild := []
  potential_slots : List PotentialSlot := []
  params : List ParamDecl := []
  folders : List FolderDecl := []
  container : Option ContainerDecl := none
deriving Repr

/-- The per-invocation context handed to behaviours (source: ProcessCtx).
The outgoing EditQueue of the source is modelled by the behaviour's
return value instead of a mutable field. -/
structure ProcessCtx where
  phase : EnginePhase
  inbox : List Event
  time : EventTime
  param_values : List (NodeId × Value)
  meta_values : List (NodeId × NodeMeta)

/-- A behaviour object (source: trait NodeBehaviour); process and update
hooks return the edits they pushed into ctx.edits. -/
structure NodeBehaviour where
  process : ProcessCtx → List EditRequest
  update : ProcessCtx → List EditRequest := fun _ => []

structure NodeBinding where
  node_id : NodeId
  by_decl : List (String × NodeId)

structure ManagerNodeRegistration where
  schema : NodeSchema
  behaviour_factory : NodeBinding → NodeBehaviour

/-- Source: golden_core::graph::node::ManagerData. -/
structure ManagerData where
  registrations : List (String × ManagerNodeRegistration)

/-- Source: golden_core::graph::node::NodeData (Custom payload is opaque). -/
inductive NodeData where
  | none
  | container (c : ContainerData)
  | parameter (p : ParameterData)
  | custom
  | manager (m : ManagerData)

/-- Source: golden_core::graph::node::Node. -/
structure Node where
  id : NodeId
  node_type : String
  execution : NodeExecution
  parent : Option NodeId
  first_child : Option NodeId
  last_child : Option NodeId
  prev_sibling : Option NodeId
  next_sibling : Option NodeId
  meta : NodeMeta
  data : NodeData
  behaviour : Option NodeBehaviour

/-- The engine state (source: struct Engine). nodes models the SlotMap,
next_key the fresh-key allocation, next_uuid the Uuid::new_v4 draws. -/
structure Engine where
  time : EventTime
  nodes : List (NodeId × Node)
  next_key : NodeId
  inboxes : List (NodeId × List Event)
  subscriptions : List ListenerSpec
  pending_edits : List EditRequest
  schema : List (String × NodeSchema)
  event_log : List Event
  param_values : List (NodeId × Value)
  meta_values : List (NodeId × NodeMeta)
  root : NodeId
  next_uuid : Nat

/-- Association list lookup (models HashMap::get / SlotMap::get). -/
def alist_get {κ α : Type} [DecidableEq κ] : List (κ × α) → κ → Option α
  | [], _ => none
  | (k2, v) :: rest, k => if k2 = k then some v else alist_get rest k

/-- Association list insert-or-update (models HashMap::insert). -/
def alist_put {κ α : Type} [DecidableEq κ] : List (κ × α) → κ → α → List (κ × α)
  | [], k, v => [(k, v)]
  | (k2, v2) :: rest, k, v =>
      if k2 = k then (k, v) :: rest else (k2, v2) :: alist_put rest k v

/-- Replace a node in the store through a function, no-op when absent
(models the get_mut patterns of the source). -/
def update_node (s : Engine) (id : NodeId) (f : Node → Node) : Engine :=
  match alist_get s.nodes id with
  | Option.none => s
  | Option.some n => { s with nodes := alist_put s.nodes id (f n) }

/-- Own-target fan-out per event kind (source: fn event_targets). -/
def event_targets : EventKind → List NodeId
  | EventKind.paramChanged param _ => [param]
  | EventKind.childAdded parent child => [parent, child]
  | EventKind.childRemoved parent child => [parent, child]
  | EventKind.childReplaced parent old new => [parent, old, new]
  | EventKind.childMoved child old_parent new_parent => [child, old_parent, new_parent]
  | EventKind.childReordered parent child => [parent, child]
  | EventKind.nodeCreated node => [node]
  | EventKind.nodeDeleted node => [node]
  | EventKind.metaChanged node _ => [node]

/-- The single node an event bubbles from (source: fn event_bubble_source). -/
def event_bubble_source : EventKind → Option NodeId
  | EventKind.paramChanged param _ => some param
  | EventKind.metaChanged node _ => some node
  | EventKind.childAdded _ child => some child
  | EventKind.childRemoved _ child => some child
  | EventKind.childReplaced _ _ new => some new
  | EventKind.childMoved child _ _ => some child
  | EventKind.childReordered _ child => some child
  | EventKind.nodeCreated node => some node
  | EventKind.nodeDeleted node => some node

/-- Walk the parent chain from node to root (source: fn is_node_in_subtree,
whose loop is fuel-bounded here by the store size; a parent chain of a
well-formed tree is never longer than the number of nodes). -/
def subtree_walk (nodes : List (NodeId × Node)) (root : NodeId) : Nat → NodeId → Bool
  | 0, _ => false
  | Nat.succ f, node =>
    match alist_get nodes node with
    | Option.none => false
    | Option.some current =>
      match current.parent with
      | Option.none => false
      | Option.some p => if p = root then true else subtree_walk nodes root f p

def is_node_in_subtree (nodes : List (NodeId × Node)) (root node : NodeId) : Bool :=
  if root = node then true else subtree_walk nodes root nodes.length node

/-- Discriminant equality of event kinds (source: std::mem::discriminant). -/
def same_kind : EventKind → EventKind → Bool
  | EventKind.paramChanged _ _, EventKind.paramChanged _ _ => true
  | EventKind.childAdded _ _, EventKind.childAdded _ _ => true
  | EventKind.childRemoved _ _, EventKind.childRemoved _ _ => true
  | EventKind.childReplaced _ _ _, EventKind.childReplaced _ _ _ => true
  | EventKind.childMoved _ _ _, EventKind.childMoved _ _ _ => true
  | EventKind.childReordered _ _, EventKind.childReordered _ _ => true
  | EventKind.nodeCreated _, EventKind.nodeCreated _ => true
  | EventKind.nodeDeleted _, EventKind.nodeDeleted _ => true
  | EventKind.metaChanged _ _, EventKind.metaChanged _ _ => true
  | _, _ => false

/-- Option::is_none_or of the source filter matching. -/
def opt_matches (expected : Option NodeId) (actual : NodeId) : Bool :=
  match expected with
  | Option.none => true
  | Option.some e => e = actual

/-- Source: fn matches_filter. -/
def matches_filter (nodes : List (NodeId × Node)) (filter : EventFilter) (event : Event) : Bool :=
  match filter with
  | EventFilter.node node_id => (event_targets event.kind).contains node_id
  | EventFilter.param node_id =>
      match event.kind with
      | EventKind.paramChanged param _ => param = node_id
      | _ => false
  | EventFilter.subtree root =>
      (event_targets event.kind).any (fun target => is_node_in_subtree nodes root target)
  | EventFilter.kind k => same_kind k event.kind
  | EventFilter.paramChanged param =>
      match event.kind with
      | EventKind.paramChanged actual _ => opt_matches param actual
      | _ => false
  | EventFilter.childAdded parent child =>
      match event.kind with
      | EventKind.childAdded ap ac => opt_matches parent ap && opt_matches child ac
      | _ => false
  | EventFilter.childRemoved parent child =>
      match event.kind with
      | EventKind.childRemoved ap ac => opt_matches parent ap && opt_matches child ac
      | _ => false
  | EventFilter.childReplaced parent old new =>
      match event.kind with
      | EventKind.childReplaced ap ao an =>
          opt_matches parent ap && opt_matches old ao && opt_matches new an
      | _ => false
  | EventFilter.childMoved child old_parent new_parent =>
      match event.kind with
      | EventKind.childMoved ac aop anp =>
          opt_matches child ac && opt_matches old_parent aop && opt_matches new_parent anp
      | _ => false
  | EventFilter.childReordered parent child =>
      match event.kind with
      | EventKind.childReordered ap ac => opt_matches parent ap && opt_matches child ac
      | _ => false
  | EventFilter.nodeCreated node =>
      match event.kind with
      | EventKind.nodeCreated actual => opt_matches node actual
      | _ => false
  | EventFilter.nodeDeleted node =>
      match event.kind with
      | EventKind.nodeDeleted actual => opt_matches node actual
      | _ => false
  | EventFilter.metaChanged node =>
      match event.kind with
      | EventKind.metaChanged actual _ => opt_matches node actual
      | _ => false
  | EventFilter.any filters => filters.attach.any (fun f => matches_filter nodes f.1 event)
  | EventFilter.all filters => filters.attach.all (fun f => matches_filter nodes f.1 event)
termination_by sizeOf filter
decreasing_by
  all_goals simp_wf
  all_goals have h := List.sizeOf_lt_of_mem f.2
  all_goals omega

/-- Push an event into a node's inbox (source: inboxes.entry(...).or_insert
followed by push; a fresh entry is appended at the end of the map). -/
def inbox_push (s : Engine) (target : NodeId) (event : Event) : Engine :=
  match alist_get s.inboxes target with
  | Option.none => { s with inboxes := s.inboxes ++ [(target, [event])] }
  | Option.some events => { s with inboxes := alist_put s.inboxes target (events ++ [event]) }

/-- Source: fn deliver_to_own_targets. -/
def deliver_to_own_targets (s : Engine) (event : Event) : Engine :=
  (event_targets event.kind).foldl (fun acc target => inbox_push acc target event) s

/-- Source: fn deliver_to_subscribers. -/
def deliver_to_subscribers (s : Engine) (event : Event) : Engine :=
  s.subscriptions.foldl
    (fun acc spec =>
      if matches_filter acc.nodes spec.filter event then inbox_push acc spec.subscriber event
      else acc)
    s

/-- Source: fn deliver_bubbled (single hop to the bubble source's parent). -/
def deliver_bubbled (s : Engine) (event : Event) : Engine :=
  match event_bubble_source event.kind with
  | Option.none => s
  | Option.some node_for_parent =>
    match (alist_get s.nodes node_for_parent).bind (fun n => n.parent) with
    | Option.none => s
    | Option.some parent => inbox_push s parent event

/-- Source: fn deliver_event (own targets, then subscribers, then bubble). -/
def deliver_event (s : Engine) (event : Event) : Engine :=
  deliver_bubbled (deliver_to_subscribers (deliver_to_own_targets s event) event) event

/-- Source: fn emit_event: stamp the current time, post-increment seq,
append to the 4096-bounded log, deliver. -/
def emit_event (s : Engine) (kind : EventKind) : Engine :=
  let event : Event := { time := s.time, kind := kind }
  let s := { s with time := { s.time with seq := s.time.seq + 1 } }
  let log := s.event_log ++ [event]
  let log := if log.length > 4096 then log.drop 1 else log
  deliver_event { s with event_log := log } event

/-- Source: Engine::set_param. Returns the updated engine and whether the
value counts as changed under the parameter's change policy; constraints
are not consulted anywhere in this function. -/
def set_param (s : Engine) (node : NodeId) (value : Value) : Engine × Bool :=
  match alist_get s.nodes node with
  | Option.none => (s, false)
  | Option.some node_ref =>
    match node_ref.data with
    | NodeData.parameter param =>
      let changed :=
        match param.change with
        | ChangePolicy.always => true
        | ChangePolicy.valueChange => decide (param.value ≠ value)
      if changed then
        ({ s with
            nodes := alist_put s.nodes node
              { node_ref with data := NodeData.parameter { param with value := value } },
            param_values := alist_put s.param_values node value }, true)
      else (s, false)
    | _ => (s, false)

/-- Source: golden_core::meta::apply_patch. -/
def apply_patch (meta : NodeMeta) (patch : NodeMetaPatch) : NodeMeta :=
  let meta := match patch.enabled with
    | Option.some enabled => { meta with enabled := enabled } | Option.none => meta
  let meta := match patch.label with
    | Option.some label => { meta with label := label } | Option.none => meta
  let meta := match patch.description with
    | Option.some description => { meta with description := description } | Option.none => meta
  let meta := match patch.tags with
    | Option.some tags => { meta with tags := tags } | Option.none => meta
  let meta := match patch.semantics with
    | Option.some semantics => { meta with semantics := semantics } | Option.none => meta
  match patch.presentation with
  | Option.some presentation => { meta with presentation := presentation }
  | Option.none => meta

/-- Source: Engine::add_child. An unconditional append of child under
parent: links are rewired and ChildAdded is emitted on every call; the
function performs no existence or cycle check beyond silent no-ops of
get_mut on absent ids. -/
def add_child (s : Engine) (parent child : NodeId) : Engine :=
  match (alist_get s.nodes parent).bind (fun n => n.last_child) with
  | Option.none =>
    let s := update_node s parent (fun p =>
      { p with first_child := some child, last_child := some child })
    let s := update_node s child (fun c =>
      { c with parent := some parent, prev_sibling := none, next_sibling := none })
    emit_event s (EventKind.childAdded parent child)
  | Option.some last_child =>
    let s := update_node s parent (fun p => { p with last_child := some child })
    let s := update_node s last_child (fun l => { l with next_sibling := some child })
    let s := update_node s child (fun c =>
      { c with parent := some parent, prev_sibling := some last_child, next_sibling := none })
    emit_event s (EventKind.childAdded parent child)

/-- Source: Engine::create_meta, with Uuid::new_v4 modelled by the
next_uuid counter (hence the engine is threaded through). -/
def create_meta (s : Engine) (label : String) : Engine × NodeMeta :=
  let short := if label = "" then "node" else label
  ({ s with next_uuid := s.next_uuid + 1 },
   { uuid := s.next_uuid, decl_id := short, short_name := short, enabled := true,
     label := short, description := none, tags := [], semantics := {}, presentation := {} })

/-- Source: Engine::default_container_data. -/
def default_container_data : ContainerData :=
  { allowed_types := AllowedTypes.anyType, folders := FolderPolicy.allowed,
    limits := { max_children := none } }

/-- Source: Engine::find_direct_child_by_decl; the sibling walk is
fuel-bounded by the store size. -/
def direct_child_walk (s : Engine) (decl_id : String) : Nat → Option NodeId → Option NodeId
  | 0, _ => none
  | Nat.succ _, Option.none => none
  | Nat.succ f, Option.some node_id =>
    match alist_get s.nodes node_id with
    | Option.none => none
    | Option.some node =>
      if node.meta.decl_id = decl_id then some node_id
      else direct_child_walk s decl_id f node.next_sibling

def find_direct_child_by_decl (s : Engine) (parent : NodeId) (decl_id : String) : Option NodeId :=
  direct_child_walk s decl_id s.nodes.length
    ((alist_get s.nodes parent).bind (fun n => n.first_child))

/-- Source: Engine::find_descendant_by_decl, a pre-order depth-first
search by decl-id equality; explicit fuel makes the tree walk total. -/
def find_desc_walk (s : Engine) (decl_id : String) : Nat → Option NodeId → Option NodeId
  | 0, _ => none
  | Nat.succ _, Option.none => none
  | Nat.succ f, Option.some node_id =>
    match alist_get s.nodes node_id with
    | Option.none => none
    | Option.some node =>
      if node.meta.decl_id = decl_id then some node_id
      else
        match find_desc_walk s decl_id f node.first_child with
        | Option.some found => some found
        | Option.none => find_desc_walk s decl_id f node.next_sibling

def find_descendant_by_decl (fuel : Nat) (s : Engine) (parent : NodeId) (decl_id : String) :
    Option NodeId :=
  find_desc_walk s decl_id fuel ((alist_get s.nodes parent).bind (fun n => n.first_child))

/-- Source: Engine::enqueue_edit. -/
def enqueue_edit (s : Engine) (edit : Edit) (propagation : Propagation)
    (origin : EditOrigin) : Engine :=
  { s with pending_edits :=
      s.pending_edits ++ [{ edit := edit, propagation := propagation, origin := origin }] }

/-- Source: Engine::events_since. -/
def events_since (s : Engine) (since : EventTime) : List Event :=
  s.event_log.filter (fun event => EventTime.ltb since event.time)

/-- Source: Engine::subscribe. -/
def subscribe (s : Engine) (spec : ListenerSpec) : Engine :=
  { s with subscriptions := s.subscriptions ++ [spec] }

/-- Source: Engine::take_inbox (mem::take leaves an empty inbox behind). -/
def take_inbox (s : Engine) (node_id : NodeId) : Engine × List Event :=
  match alist_get s.inboxes node_id with
  | Option.none => (s, [])
  | Option.some events => ({ s with inboxes := alist_put s.inboxes node_id [] }, events)

/-- Source: Engine::has_pending_inboxes. -/
def has_pending_inboxes (s : Engine) : Bool :=
  s.inboxes.any (fun p => !p.2.isEmpty)

/-- The identifiers with non-empty inboxes, in map order (source collects
them from a HashMap in unspecified order; association-list order is one
realizable order). -/
def ready_list (s : Engine) : List NodeId :=
  (s.inboxes.filter (fun p => !p.2.isEmpty)).map (fun p => p.1)

/-- Source: Engine::default_node_data_from_schema. -/
def default_node_data_from_schema (sch : NodeSchema) : NodeData :=
  match sch.container with
  | Option.none => NodeData.none
  | Option.some container =>
      NodeData.container
        { allowed_types := container.allowed_types, folders := container.folders,
          limits := { max_children := none } }

/-- Source: Engine::default_node_data_for_type. -/
def default_node_data_for_type (s : Engine) (node_type : String) : NodeData :=
  match alist_get s.schema node_type with
  | Option.none => NodeData.none
  | Option.some sch => default_node_data_from_schema sch

/-- Rust str::split('.') used by ensure_folder_path, written as a
structural recursion over the character list (String.splitOn is not
reducible in the kernel). The empty path yields one empty segment, as in
Rust. -/
def split_dots_chars : List Char → List Char → List String
  | [], acc => [String.mk acc.reverse]
  | c :: rest, acc =>
    if c = '.' then String.mk acc.reverse :: split_dots_chars rest []
    else split_dots_chars rest (c :: acc)

def split_path (path : String) : List String := split_dots_chars path.data []

/-- The insert-and-emit core of Engine::create_node: insert the node
with fresh id, seed the read views and the inbox, emit NodeCreated.
Declared-child materialization is layered on top in create_node. -/
def create_node_base (s : Engine) (node_type : String) (execution : NodeExecution)
    (data : NodeData) (meta : NodeMeta) (behaviour : Option NodeBehaviour) :
    Engine × NodeId :=
  let param_value : Option Value :=
    match data with
    | NodeData.parameter p => some p.value
    | _ => none
  let node_id := s.next_key
  let node : Node :=
    { id := node_id, node_type := node_type, execution := execution, parent := none,
      first_child := none, last_child := none, prev_sibling := none, next_sibling := none,
      meta := meta, data := data, behaviour := behaviour }
  let s := { s with nodes := s.nodes ++ [(node_id, node)], next_key := s.next_key + 1 }
  let s :=
    match param_value with
    | Option.some v => { s with param_values := alist_put s.param_values node_id v }
    | Option.none => s
  let s := { s with meta_values := alist_put s.meta_values node_id meta }
  let s := { s with inboxes := alist_put s.inboxes node_id [] }
  (emit_event s (EventKind.nodeCreated node_id), node_id)

/-- The node-creation callback threaded through the instantiation
helpers below. The source's instantiation methods call back into
Engine::create_node; the callback (instantiated with create_node at one
less fuel) makes that recursion explicit for Lean. -/
def CreateFn : Type :=
  Engine → String → NodeExecution → NodeData → NodeMeta → Option NodeBehaviour →
    Engine × NodeId

/-- Source: Engine::ensure_folder_path, recursing over the dotted path
segments; pfx accumulates the cumulative dotted prefix. An existing
direct child with matching decl-id is reused, otherwise a Folder node is
created (through the callback) and appended. -/
def ensure_folder_path_with (create : CreateFn) (s : Engine) (current_parent : NodeId) :
    List String → String → String → Option String → Engine × NodeId
  | [], _, _, _ => (s, current_parent)
  | segment :: rest, pfx, path, label =>
    let pfx2 := if pfx = "" then segment else pfx ++ "." ++ segment
    match find_direct_child_by_decl s current_parent pfx2 with
    | Option.some existing => ensure_folder_path_with create s existing rest pfx2 path label
    | Option.none =>
      let created_meta := create_meta s segment
      let meta :=
        { created_meta.2 with
            decl_id := pfx2, short_name := segment,
            label := if pfx2 = path then label.getD segment else segment }
      let created := create created_meta.1 "Folder" NodeExecution.passive
        (NodeData.container default_container_data) meta none
      ensure_folder_path_with create (add_child created.1 current_parent created.2)
        created.2 rest pfx2 path label

/-- The folder loop of instantiate_declared_children_from_schema,
accumulating the folder_nodes map. -/
def inst_folders_with (create : CreateFn) (s : Engine) (parent : NodeId) :
    List FolderDecl → List (String × NodeId) → Engine × List (String × NodeId)
  | [], folder_nodes => (s, folder_nodes)
  | folder :: rest, folder_nodes =>
    let ensured := ensure_folder_path_with create s parent (split_path folder.decl_id) ""
      folder.decl_id folder.label
    inst_folders_with create ensured.1 parent rest
      (alist_put folder_nodes folder.decl_id ensured.2)

/-- The parameter loop of instantiate_declared_children_from_schema. -/
def inst_params_with (create : CreateFn) (s : Engine) (parent : NodeId)
    (folder_nodes : List (String × NodeId)) : List ParamDecl → Engine
  | [] => s
  | param :: rest =>
    let created_meta := create_meta s param.decl_id
    let meta :=
      { created_meta.2 with
          decl_id := param.decl_id, short_name := param.decl_id, label := param.decl_id,
          semantics := param.semantics, presentation := param.presentation }
    let created := create created_meta.1 "Parameter" NodeExecution.passive
      (NodeData.parameter
        { value := param.default, default := some param.default,
          read_only := param.read_only, update := param.update, save := param.save,
          change := param.change, constraints := param.constraints })
      meta none
    let target_parent :=
      match param.folder with
      | Option.none => parent
      | Option.some decl => (alist_get folder_nodes decl).getD parent
    inst_params_with create (add_child created.1 target_parent created.2) parent
      folder_nodes rest

/-- The declared-children loop of instantiate_declared_children_from_schema
(skipping Parameter- and Folder-typed declarations). -/
def inst_children_with (create : CreateFn) (s : Engine) (parent : NodeId) :
    List DeclaredChild → Engine
  | [] => s
  | child :: rest =>
    if child.node_type = "Parameter" || child.node_type = "Folder" then
      inst_children_with create s parent rest
    else
      let created_meta := create_meta s (child.default_label.getD child.decl_id)
      let meta0 :=
        { created_meta.2 with
            decl_id := child.decl_id, enabled := child.default_enabled }
      let meta :=
        match child.default_label with
        | Option.some label => { meta0 with label := label }
        | Option.none => meta0
      let data := default_node_data_for_type created_meta.1 child.node_type
      let created := create created_meta.1 child.node_type NodeExecution.passive
        data meta none
      inst_children_with create (add_child created.1 parent created.2) parent rest

/-- Source: Engine::instantiate_declared_children_from_schema: folders
first, then parameters, then other declared children. -/
def instantiate_from_schema_with (create : CreateFn) (s : Engine) (parent : NodeId)
    (sch : NodeSchema) : Engine :=
  let folded := inst_folders_with create s parent sch.folders []
  let s2 := inst_params_with create folded.1 parent folded.2 sch.params
  inst_children_with create s2 parent sch.declared_children

/-- Source: Engine::create_node. Inserts the node through
create_node_base, then runs declared-child materialization against the
registered schema, with children created by create_node at one less
fuel; the fuel therefore bounds the schema nesting depth (the source
would not terminate on cyclically recursive schemas either). -/
def create_node : Nat → Engine → String → NodeExecution → NodeData → NodeMeta →
    Option NodeBehaviour → Engine × NodeId
  | 0, s, node_type, execution, data, meta, behaviour =>
    create_node_base s node_type execution data meta behaviour
  | Nat.succ f, s, node_type, execution, data, meta, behaviour =>
    let created := create_node_base s node_type execution data meta behaviour
    match alist_get created.1.schema node_type with
    | Option.none => created
    | Option.some sch =>
      (instantiate_from_schema_with (create_node f) created.1 created.2 sch, created.2)

/-- Source: Engine::instantiate_declared_children_from_schema, with the
child-creation callback tied to create_node at the given fuel. -/
def instantiate_declared_children_from_schema (fuel : Nat) (s : Engine) (parent : NodeId)
    (sch : NodeSchema) : Engine :=
  instantiate_from_schema_with (create_node fuel) s parent sch

/-- Source: Engine::instantiate_declared_children. -/
def instantiate_declared_children (fuel : Nat) (s : Engine) (parent : NodeId)
    (parent_type : String) : Engine :=
  match alist_get s.schema parent_type with
  | Option.none => s
  | Option.some sch => instantiate_declared_children_from_schema fuel s parent sch

/-- Source: Engine::ensure_folder_path at a given creation fuel. -/
def ensure_folder_path (fuel : Nat) (s : Engine) (current_parent : NodeId)
    (segments : List String) (pfx path : String) (label : Option String) :
    Engine × NodeId :=
  ensure_folder_path_with (create_node fuel) s current_parent segments pfx path label

/-- Source: Engine::build_node_binding_from_schema (the descendant
searches use the store size as DFS fuel). -/
def build_node_binding_from_schema (s : Engine) (node : NodeId) (sch : NodeSchema) :
    NodeBinding :=
  let fuel := s.nodes.length
  let by_decl :=
    sch.folders.foldl
      (fun acc folder =>
        match find_descendant_by_decl fuel s node folder.decl_id with
        | Option.some id => alist_put acc folder.decl_id id
        | Option.none => acc)
      ([] : List (String × NodeId))
  let by_decl :=
    sch.params.foldl
      (fun acc param =>
        match find_descendant_by_decl fuel s node param.decl_id with
        | Option.some id => alist_put acc param.decl_id id
        | Option.none => acc)
      by_decl
  let by_decl :=
    sch.declared_children.foldl
      (fun acc child =>
        match find_descendant_by_decl fuel s node child.decl_id with
        | Option.some id => alist_put acc child.decl_id id
        | Option.none => acc)
      by_decl
  { node_id := node, by_decl := by_decl }

/-- Source: Engine::instantiate_child_from_manager. -/
def instantiate_child_from_manager (fuel : Nat) (s : Engine) (manager : NodeId)
    (node_type label : String) (execution : NodeExecution) : Engine × Option NodeId :=
  match alist_get s.nodes manager with
  | Option.none => (s, none)
  | Option.some manager_node =>
    match manager_node.data with
    | NodeData.manager manager_data =>
      match alist_get manager_data.registrations node_type with
      | Option.none => (s, none)
      | Option.some registration =>
        let manager_schema := registration.schema
        let data := default_node_data_from_schema manager_schema
        let created_meta := create_meta s label
        let created := create_node fuel created_meta.1 node_type execution data
          created_meta.2 none
        let s := add_child created.1 manager created.2
        let child := created.2
        let s := instantiate_declared_children_from_schema fuel s child manager_schema
        let binding := build_node_binding_from_schema s child manager_schema
        let manager_behaviour := registration.behaviour_factory binding
        let s := update_node s child (fun c => { c with behaviour := some manager_behaviour })
        (s, some child)
    | _ => (s, none)

/-- The SetParam arm of Engine::apply_edit_requests: apply through
set_param and emit ParamChanged exactly when the assignment counted as a
change. -/
def apply_set_param (s : Engine) (node : NodeId) (value : Value) : Engine :=
  let applied := set_param s node value
  if applied.2 then emit_event applied.1 (EventKind.paramChanged node value)
  else applied.1

/-- The edits produced by one behaviour invocation: the context is built
from the engine state at the moment the node is drained, so the read
views are the current param_values and meta_values maps. -/
def invocation_edits (phase : EnginePhase) (s : Engine) (node_id : NodeId)
    (inbox : List Event) : List EditRequest :=
  match alist_get s.nodes node_id with
  | Option.none => []
  | Option.some node =>
    match node.behaviour with
    | Option.none => []
    | Option.some b =>
      b.process
        { phase := phase, inbox := inbox, time := s.time,
          param_values := s.param_values, meta_values := s.meta_values }

mutual

/-- Source: Engine::apply_edit_requests. Each request's edit is applied
(SetParam through set_param with a ParamChanged emit on change, PatchMeta
through apply_patch with a MetaChanged emit, manager instantiation
unconditionally), then Immediate propagation triggers a nested flush.
Note that the propagation class of a non-Immediate request is not
consulted: EndOfTick and NextTick requests in the list are applied here
and now. -/
def apply_edit_requests (fuel : Nat) (s : Engine) (edits : List EditRequest) : Engine :=
  match edits with
  | [] => s
  | request :: rest =>
    match fuel with
    | 0 => s
    | Nat.succ f =>
      let s :=
        match request.edit with
        | Edit.setParam node value => apply_set_param s node value
        | Edit.patchMeta node patch =>
          match alist_get s.nodes node with
          | Option.none => s
          | Option.some node_ref =>
            let meta2 := apply_patch node_ref.meta patch
            let s2 :=
              { s with
                  nodes := alist_put s.nodes node { node_ref with meta := meta2 },
                  meta_values := alist_put s.meta_values node meta2 }
            emit_event s2 (EventKind.metaChanged node patch)
        | Edit.instantiateChildFromManager manager node_type label execution =>
          (instantiate_child_from_manager f s manager node_type label execution).1
      let s :=
        if request.propagation = Propagation.immediate then flush_immediate f s
        else s
      apply_edit_requests f s rest
termination_by structural fuel

/-- Source: Engine::flush_immediate: bump micro (saturating on u32 in
the source, plain successor on Nat here), reset seq, run one reactive
drain pass in FlushImmediate phase over the currently ready inboxes. -/
def flush_immediate (fuel : Nat) (s : Engine) : Engine :=
  let s := { s with time := { s.time with micro := s.time.micro + 1, seq := 0 } }
  match fuel with
  | 0 => s
  | Nat.succ f => process_pending_order f EnginePhase.flushImmediate s (ready_list s)
termination_by structural fuel

/-- The drain loop of Engine::process_pending over an explicit order of
node identifiers (the source fixes the order by HashMap iteration, which
is unspecified; theorems below quantify over the order). For each node
the inbox is swapped out, the behaviour's process hook runs with a
context capturing the read views at this point, and the produced edits
are applied before the next node is drained. -/
def process_pending_order (fuel : Nat) (phase : EnginePhase) (s : Engine)
    (order : List NodeId) : Engine :=
  match order with
  | [] => s
  | node_id :: rest =>
    match fuel with
    | 0 => s
    | Nat.succ f =>
      let taken := take_inbox s node_id
      let s := taken.1
      let edits := invocation_edits phase s node_id taken.2
      process_pending_order f phase (apply_edit_requests f s edits) rest
termination_by structural fuel

end

/-- Source: Engine::process_pending (ready set in map order). -/
def process_pending (fuel : Nat) (phase : EnginePhase) (s : Engine) : Engine :=
  process_pending_order fuel phase s (ready_list s)

/-- The update-pass loop of Engine::run_update_pass over the node key
list: every Continuous node's update hook runs with a fresh context and
its produced edits are applied immediately after. -/
def run_update_go (fuel : Nat) (s : Engine) : List NodeId → Engine
  | [] => s
  | node_id :: rest =>
    let should_update :=
      match alist_get s.nodes node_id with
      | Option.some node => node.execution == NodeExecution.continuous
      | Option.none => false
    if should_update then
      let edits :=
        match (alist_get s.nodes node_id).bind (fun n => n.behaviour) with
        | Option.none => []
        | Option.some b =>
          b.update
            { phase := EnginePhase.engineTick, inbox := [], time := s.time,
              param_values := s.param_values, meta_values := s.meta_values }
      run_update_go fuel (apply_edit_requests fuel s edits) rest
    else run_update_go fuel s rest

/-- Source: Engine::run_update_pass (keys in store order). -/
def run_update_pass (fuel : Nat) (s : Engine) : Engine :=
  run_update_go fuel s (s.nodes.map (fun p => p.1))

/-- The end-of-tick stabilization loop of Engine::tick: up to eight
rounds; each executed round sets micro to the round index and seq to 0
before draining (note: sets, not bumps, the source assigns
self.time.micro = round). -/
def stabilize (fuel : Nat) (s : Engine) (round : Nat) : Nat → Engine
  | 0 => s
  | Nat.succ remaining =>
    if has_pending_inboxes s then
      let s := { s with time := { s.time with micro := round, seq := 0 } }
      let s := process_pending fuel EnginePhase.endOfTickStabilization s
      stabilize fuel s (round + 1) remaining
    else s

/-- Source: Engine::tick: advance time, drain-and-apply external edits,
update pass, reactive drain, stabilization rounds. -/
def tick (fuel : Nat) (s : Engine) : Engine :=
  let s := { s with time := { tick := s.time.tick + 1, micro := 0, seq := 0 } }
  let external := s.pending_edits
  let s := { s with pending_edits := [] }
  let s := apply_edit_requests fuel s external
  let s := run_update_pass fuel s
  let s := process_pending fuel EnginePhase.engineTick s
  stabilize fuel s 1 8

/-- Source: Engine::new: empty state, then the Root container node with
decl-id, short-name and label "root". -/
def Engine.new (fuel : Nat) : Engine :=
  let engine : Engine :=
    { time := { tick := 0, micro := 0, seq := 0 }, nodes := [], next_key := 1,
      inboxes := [], subscriptions := [], pending_edits := [], schema := [],
      event_log := [], param_values := [], meta_values := [], root := 0, next_uuid := 1 }
  let created_meta := create_meta engine "root"
  let root_meta :=
    { created_meta.2 with decl_id := "root", short_name := "root", label := "root" }
  let created := create_node fuel created_meta.1 "Root" NodeExecution.passive
    (NodeData.container default_container_data) root_meta none
  { created.1 with root := created.2 }

/-- Source: Engine::register_schema. -/
def register_schema (s : Engine) (node_type : String) (sch : NodeSchema) : Engine :=
  { s with schema := alist_put s.schema node_type sch }

/-- Source: Engine::create_parameter_node (ValueChange, Immediate update,
Delta save, no constraints, default equal to the initial value). -/
def create_parameter_node (fuel : Nat) (s : Engine) (label : String) (value : Value) :
    Engine × NodeId :=
  let created_meta := create_meta s label
  create_node fuel created_meta.1 "Parameter" NodeExecution.passive
    (NodeData.parameter
      { value := value, default := some value, read_only := false,
        update := UpdatePolicy.immediate, save := SavePolicy.delta,
        change := ChangePolicy.valueChange, constraints := ValueConstraints.none })
    created_meta.2 none

/-- Source: Engine::create_child_parameter. -/
def create_child_parameter (fuel : Nat) (s : Engine) (parent : NodeId) (label : String)
    (value : Value) : Engine × NodeId :=
  let created := create_parameter_node fuel s label value
  (add_child created.1 parent created.2, created.2)

/-- Source: golden_schema::persistence::NodeDataKind. -/
inductive NodeDataKind where
  | none
  | container
  | parameter
  | custom (tag : String)
deriving DecidableEq, Repr

structure ContainerDataDto where
  allowed_types : List String
  folders_allowed : Bool
deriving DecidableEq, Repr

structure NodeDataDto where
  kind : NodeDataKind
  container : Option ContainerDataDto
  parameter : Option ParameterData
deriving DecidableEq, Repr

/-- Source: golden_schema::persistence::NodeRecord (untagged sum of
FullNodeRecord and DeltaNodeRecord, flattened into one inductive). -/
inductive NodeRecord where
  | full (decl_id : Option String) (node_type : String) (uuid : Nat) (meta : NodeMeta)
      (data : NodeDataDto) (children : List NodeRecord)
  | delta (decl_id : String) (uuid : Option Nat) (meta : Option NodeMetaPatch)
      (value : Option Value) (children : List NodeRecord)

structure ProjectFile where
  version : String
  root : NodeRecord

/-- Source: persistence::save::ExportNode. -/
inductive ExportNode where
  | mk (node_id : NodeId) (record : NodeRecord) (children : List ExportNode)

mutual

/-- Structural equality test on node records (DecidableEq cannot be
derived for the nested inductive). -/
def record_beq : NodeRecord → NodeRecord → Bool
  | NodeRecord.full d1 t1 u1 m1 dt1 c1, NodeRecord.full d2 t2 u2 m2 dt2 c2 =>
    d1 == d2 && t1 == t2 && u1 == u2 && m1 == m2 && dt1 == dt2 && records_beq c1 c2
  | NodeRecord.delta d1 u1 m1 v1 c1, NodeRecord.delta d2 u2 m2 v2 c2 =>
    d1 == d2 && u1 == u2 && m1 == m2 && v1 == v2 && records_beq c1 c2
  | _, _ => false

def records_beq : List NodeRecord → List NodeRecord → Bool
  | [], [] => true
  | x :: xs, y :: ys => record_beq x y && records_beq xs ys
  | _, _ => false

end

/-- The mutable parts of persistence::save::ExportContext (referenced and
emitted uuid sets as insertion-ordered lists). -/
structure ExportSt where
  referenced : List Nat
  emitted : List Nat

inductive SlotKind where
  | declared
  | potential
  | dynamic
deriving DecidableEq, Repr

/-- Source: persistence::save::is_declared_child. -/
def is_declared_child (sch : NodeSchema) (decl_id node_type : String) : Bool :=
  sch.declared_children.any (fun child =>
    child.decl_id == decl_id && child.node_type == node_type)

/-- Source: persistence::save::is_potential_slot. -/
def is_potential_slot (sch : NodeSchema) (decl_id node_type : String) : Bool :=
  sch.potential_slots.any (fun slot =>
    slot.decl_id == decl_id && slot.allowed_types.any (fun t => t == node_type))

/-- Source: persistence::save::slot_kind: classification of a child by
the schema of the node type of its direct parent in the export walk. -/
def slot_kind (eng : Engine) (parent_type : Option String) (node : Node) : SlotKind :=
  match parent_type with
  | Option.none => SlotKind.dynamic
  | Option.some pt =>
    match alist_get eng.schema pt with
    | Option.none => SlotKind.dynamic
    | Option.some sch =>
      if is_potential_slot sch node.meta.decl_id node.node_type then SlotKind.potential
      else if is_declared_child sch node.meta.decl_id node.node_type then SlotKind.declared
      else SlotKind.dynamic

/-- Source: persistence::save::find_declared_child. -/
def find_declared_child (sch : NodeSchema) (node : Node) : Option DeclaredChild :=
  sch.declared_children.find? (fun child =>
    child.decl_id == node.meta.decl_id && child.node_type == node.node_type)

/-- Source: persistence::save::meta_patch_from_node: the patch against
schema defaults, None when empty. -/
def meta_patch_from_node (node : Node) (declared : Option DeclaredChild) :
    Option NodeMetaPatch :=
  let default_label :=
    match declared.bind (fun child => child.default_label) with
    | Option.some label => label
    | Option.none => node.meta.decl_id
  let default_enabled :=
    match declared with
    | Option.some child => child.default_enabled
    | Option.none => true
  let patch : NodeMetaPatch := {}
  let patch := if node.meta.enabled ≠ default_enabled then
    { patch with enabled := some node.meta.enabled } else patch
  let patch := if node.meta.label ≠ default_label then
    { patch with label := some node.meta.label } else patch
  let patch := if node.meta.description.isSome then
    { patch with description := some node.meta.description } else patch
  let patch := if !node.meta.tags.isEmpty then
    { patch with tags := some node.meta.tags } else patch
  let patch := if node.meta.semantics ≠ {} then
    { patch with semantics := some node.meta.semantics } else patch
  let patch := if node.meta.presentation ≠ {} then
    { patch with presentation := some node.meta.presentation } else patch
  if patch = ({} : NodeMetaPatch) then none else some patch

/-- Source: persistence::save::container_to_dto. -/
def container_to_dto (container : ContainerData) : ContainerDataDto :=
  { allowed_types :=
      match container.allowed_types with
      | AllowedTypes.anyType => []
      | AllowedTypes.only list => list,
    folders_allowed := container.folders = FolderPolicy.allowed }

/-- Source: persistence::save::node_data_to_dto. -/
def node_data_to_dto (data : NodeData) : NodeDataDto :=
  match data with
  | NodeData.none => { kind := NodeDataKind.none, container := none, parameter := none }
  | NodeData.container c =>
      { kind := NodeDataKind.container, container := some (container_to_dto c),
        parameter := none }
  | NodeData.parameter p =>
      { kind := NodeDataKind.parameter, container := none, parameter := some p }
  | NodeData.custom =>
      { kind := NodeDataKind.custom "Custom", container := none, parameter := none }
  | NodeData.manager _ =>
      { kind := NodeDataKind.none, container := none, parameter := none }

/-- Source: persistence::save::collect_references (HashSet insert). -/
def collect_references (st : ExportSt) (node : Node) : ExportSt :=
  match node.data with
  | NodeData.parameter p =>
    match p.value with
    | Value.reference uuid _ =>
      if st.referenced.contains uuid then st
      else { st with referenced := st.referenced ++ [uuid] }
    | _ => st
  | _ => st

/-- HashSet insert into the emitted set. -/
def mark_emitted (st : ExportSt) (uuid : Nat) : ExportSt :=
  if st.emitted.contains uuid then st else { st with emitted := st.emitted ++ [uuid] }

mutual

/-- Source: persistence::save::export_node: classify by the parent's
schema and dispatch to the full or delta shape. -/
def export_node (fuel : Nat) (eng : Engine) (st : ExportSt) (node_id : NodeId)
    (parent_type : Option String) : ExportSt × Option ExportNode :=
  match fuel with
  | 0 => (st, none)
  | Nat.succ f =>
    match alist_get eng.nodes node_id with
    | Option.none => (st, none)
    | Option.some node =>
      match slot_kind eng parent_type node with
      | SlotKind.dynamic => export_full_record f eng st node_id none
      | SlotKind.potential => export_full_record f eng st node_id (some node.meta.decl_id)
      | SlotKind.declared => export_delta_record f eng st node_id parent_type
termination_by structural fuel

/-- Source: persistence::save::export_full_record. -/
def export_full_record (fuel : Nat) (eng : Engine) (st : ExportSt) (node_id : NodeId)
    (decl_id : Option String) : ExportSt × Option ExportNode :=
  match fuel with
  | 0 => (st, none)
  | Nat.succ f =>
    match alist_get eng.nodes node_id with
    | Option.none => (st, none)
    | Option.some node =>
      let data := node_data_to_dto node.data
      let collected := collect_children f eng st node.first_child node.node_type
      let st := collect_references collected.1 node
      let st := mark_emitted st node.meta.uuid
      (st, some (ExportNode.mk node_id
        (NodeRecord.full decl_id node.node_type node.meta.uuid node.meta data [])
        collected.2))
termination_by structural fuel

/-- Source: persistence::save::export_delta_record: value delta against
the parameter default, meta patch against schema defaults, elided
entirely when value, meta and children are all empty. -/
def export_delta_record (fuel : Nat) (eng : Engine) (st : ExportSt) (node_id : NodeId)
    (parent_type : Option String) : ExportSt × Option ExportNode :=
  match fuel with
  | 0 => (st, none)
  | Nat.succ f =>
    match alist_get eng.nodes node_id with
    | Option.none => (st, none)
    | Option.some node =>
      let value : Option Value :=
        match node.data with
        | NodeData.parameter param =>
          if param.default ≠ some param.value then some param.value else none
        | _ => none
      let sch := parent_type.bind (fun parent => alist_get eng.schema parent)
      let declared := sch.bind (fun sch => find_declared_child sch node)
      let meta := meta_patch_from_node node declared
      let collected := collect_children f eng st node.first_child node.node_type
      let st := collected.1
      if value.isNone && meta.isNone && collected.2.isEmpty then (st, none)
      else
        let st := collect_references st node
        let st := mark_emitted st node.meta.uuid
        (st, some (ExportNode.mk node_id
          (NodeRecord.delta node.meta.decl_id (some node.meta.uuid) meta value [])
          collected.2))
termination_by structural fuel

/-- Source: persistence::save::collect_children, walking the sibling
chain starting at the parent's first child. -/
def collect_children (fuel : Nat) (eng : Engine) (st : ExportSt) (current : Option NodeId)
    (parent_type : String) : ExportSt × List ExportNode :=
  match fuel with
  | 0 => (st, [])
  | Nat.succ f =>
    match current with
    | Option.none => (st, [])
    | Option.some child_id =>
      let exported := export_node f eng st child_id (some parent_type)
      let next := (alist_get eng.nodes child_id).bind (fun child => child.next_sibling)
      let rest := collect_children f eng exported.1 next parent_type
      (rest.1,
        match exported.2 with
        | Option.some child_record => child_record :: rest.2
        | Option.none => rest.2)
termination_by structural fuel

end

mutual

/-- Source: ExportNode::into_record: write the materialized children
into the record shape (fuel bounds the tree depth). -/
def into_record (fuel : Nat) : ExportNode → NodeRecord
  | ExportNode.mk _ record children =>
    let kids :=
      match fuel with
      | 0 => []
      | Nat.succ f => into_records f children
    match record with
    | NodeRecord.full decl_id node_type uuid meta data _ =>
        NodeRecord.full decl_id node_type uuid meta data kids
    | NodeRecord.delta decl_id uuid meta value _ =>
        NodeRecord.delta decl_id uuid meta value kids
termination_by structural fuel

def into_records (fuel : Nat) : List ExportNode → List NodeRecord
  | [] => []
  | x :: xs =>
    match fuel with
    | 0 => []
    | Nat.succ f => into_record f x :: into_records f xs
termination_by structural fuel

end

/-- Source: persistence::save::child_has_decl_id. -/
def child_has_decl_id (children : List ExportNode) (record : NodeRecord) : Bool :=
  let decl_id : Option String :=
    match record with
    | NodeRecord.full decl_id _ _ _ _ _ => decl_id
    | NodeRecord.delta decl_id _ _ _ _ => some decl_id
  match decl_id with
  | Option.none => false
  | Option.some decl_id =>
    children.any (fun child =>
      match child with
      | ExportNode.mk _ (NodeRecord.full d _ _ _ _ _) _ => d == some decl_id
      | ExportNode.mk _ (NodeRecord.delta d _ _ _ _) _ => d == decl_id)

mutual

/-- Source: persistence::save::insert_binding_record: place the stub
under the export node for parent_id, skipping duplicates by decl-id. -/
def insert_binding_record (root : ExportNode) (parent_id : NodeId) (binding : NodeRecord) :
    ExportNode × Bool :=
  match root with
  | ExportNode.mk node_id record children =>
    if node_id = parent_id then
      if child_has_decl_id children binding then (ExportNode.mk node_id record children, true)
      else
        (ExportNode.mk node_id record (children ++ [ExportNode.mk 0 binding []]), true)
    else
      let updated := insert_binding_list children parent_id binding
      (ExportNode.mk node_id record updated.1, updated.2)

def insert_binding_list (children : List ExportNode) (parent_id : NodeId)
    (binding : NodeRecord) : List ExportNode × Bool :=
  match children with
  | [] => ([], false)
  | child :: rest =>
    let attempt := insert_binding_record child parent_id binding
    if attempt.2 then (attempt.1 :: rest, true)
    else
      let rest_attempt := insert_binding_list rest parent_id binding
      (child :: rest_attempt.1, rest_attempt.2)

end

/-- Source: persistence::save::apply_reference_closure: for each
referenced uuid that was not emitted and whose node is a declared child
of its parent's schema, push a minimal Delta stub under that parent. -/
def apply_reference_closure (eng : Engine) (st : ExportSt)
    (uuid_map : List (Nat × NodeId)) (root : ExportNode) : ExportNode :=
  st.referenced.foldl
    (fun root uuid =>
      if st.emitted.contains uuid then root
      else
        match alist_get uuid_map uuid with
        | Option.none => root
        | Option.some node_id =>
          match alist_get eng.nodes node_id with
          | Option.none => root
          | Option.some node =>
            match node.parent with
            | Option.none => root
            | Option.some parent_id =>
              match alist_get eng.nodes parent_id with
              | Option.none => root
              | Option.some parent =>
                match alist_get eng.schema parent.node_type with
                | Option.none => root
                | Option.some sch =>
                  if !is_declared_child sch node.meta.decl_id node.node_type then root
                  else
                    let binding := NodeRecord.delta node.meta.decl_id (some uuid)
                      none none []
                    (insert_binding_record root parent_id binding).1)
    root

/-- Source: persistence::save::missing_record (the fabricated uuid of
Uuid::new_v4 is modelled by the engine's counter). -/
def missing_record (eng : Engine) : ExportNode :=
  ExportNode.mk 0
    (NodeRecord.full none "Missing" eng.next_uuid
      { uuid := eng.next_uuid, decl_id := "missing", short_name := "missing",
        enabled := true, label := "missing", description := none, tags := [],
        semantics := {}, presentation := {} }
      { kind := NodeDataKind.none, container := none, parameter := none } [])
    []

/-- Source: persistence::save::export_root_node. -/
def export_root_node (fuel : Nat) (eng : Engine) (st : ExportSt) (node_id : NodeId) :
    ExportSt × ExportNode :=
  let exported := export_full_record fuel eng st node_id none
  match exported.2 with
  | Option.some record => (exported.1, record)
  | Option.none => (exported.1, missing_record eng)

/-- Source: persistence::save::export_project. -/
def export_project (fuel : Nat) (eng : Engine) (root : NodeId) (version : String) :
    ProjectFile :=
  let uuid_map := eng.nodes.map (fun p => (p.2.meta.uuid, p.2.id))
  let st : ExportSt := { referenced := [], emitted := [] }
  let exported := export_root_node fuel eng st root
  let closed := apply_reference_closure eng exported.1 uuid_map exported.2
  { version := version, root := into_record fuel closed }

/-- Walk a child list through first_child and next_sibling links
(fuel-bounded sibling walk, as in the scenario printers of the source). -/
def children_walk (s : Engine) : Nat → Option NodeId → List NodeId
  | 0, _ => []
  | Nat.succ _, Option.none => []
  | Nat.succ f, Option.some id =>
    id :: children_walk s f ((alist_get s.nodes id).bind (fun n => n.next_sibling))

def children_of (s : Engine) (parent : NodeId) : List NodeId :=
  children_walk s s.nodes.length ((alist_get s.nodes parent).bind (fun n => n.first_child))

def decl_of (s : Engine) (id : NodeId) : Option String :=
  (alist_get s.nodes id).map (fun n => n.meta.decl_id)

def type_of (s : Engine) (id : NodeId) : Option String :=
  (alist_get s.nodes id).map (fun n => n.node_type)

def parent_of (s : Engine) (id : NodeId) : Option (Option NodeId) :=
  (alist_get s.nodes id).map (fun n => n.parent)

def inbox_of (s : Engine) (id : NodeId) : List Event :=
  (alist_get s.inboxes id).getD []

/-- A parameter payload with Always change policy (as a schema-declared
parameter would carry after auto-instantiation). -/
def always_param (v : Value) : ParameterData :=
  { value := v, default := some v, read_only := false,
    update := UpdatePolicy.immediate, save := SavePolicy.delta,
    change := ChangePolicy.always, constraints := ValueConstraints.none }

/-- A behaviour that requests node 3 to be set to 7 with NextTick
propagation while its read view still shows an older value. -/
def c1_behaviour : NodeBehaviour :=
  { process := fun ctx =>
      if alist_get ctx.param_values 3 ≠ some (Value.int 7) then
        [{ edit := Edit.setParam 3 (Value.int 7), propagation := Propagation.nextTick,
           origin := EditOrigin.internal }]
      else [] }

/-- Engine with root 1 (carrying c1_behaviour), ValueChange parameters
p = 2 and r = 3, and one external EndOfTick SetParam on p pending. -/
def c1_engine : Engine :=
  let e := Engine.new 8
  let p := create_child_parameter 8 e 1 "p" (Value.int 0)
  let r := create_child_parameter 8 p.1 1 "r" (Value.int 0)
  let e := update_node r.1 1 (fun n => { n with behaviour := some c1_behaviour })
  enqueue_edit e (Edit.setParam 2 (Value.int 1)) Propagation.endOfTick EditOrigin.ui

/-- A behaviour that unconditionally requests the Always-policy
parameter 3 to be set (so every drain of its inbox emits an event). -/
def c2_behaviour : NodeBehaviour :=
  { process := fun _ =>
      [{ edit := Edit.setParam 3 (Value.int 1), propagation := Propagation.endOfTick,
         origin := EditOrigin.internal }] }

/-- Engine with root 1 (carrying c2_behaviour), ValueChange parameter
p = 2, Always parameter r = 3, and one external Immediate SetParam on p
pending. -/
def c2_engine : Engine :=
  let e := Engine.new 8
  let p := create_child_parameter 8 e 1 "p" (Value.int 0)
  let cm := create_meta p.1 "r"
  let r := create_node 8 cm.1 "Parameter" NodeExecution.passive
    (NodeData.parameter (always_param (Value.int 0))) cm.2 none
  let e := add_child r.1 1 3
  let e := update_node e 1 (fun n => { n with behaviour := some c2_behaviour })
  enqueue_edit e (Edit.setParam 2 (Value.int 1)) Propagation.immediate EditOrigin.ui

/-- A behaviour writing parameter 2 during the drain round. -/
def c6_a_behaviour : NodeBehaviour :=
  { process := fun _ =>
      [{ edit := Edit.setParam 2 (Value.int 5), propagation := Propagation.endOfTick,
         origin := EditOrigin.internal }] }

/-- A behaviour copying its read view of parameter 2 into parameter 3. -/
def c6_b_behaviour : NodeBehaviour :=
  { process := fun ctx =>
      [{ edit := Edit.setParam 3 ((alist_get ctx.param_values 2).getD (Value.int 99)),
         propagation := Propagation.endOfTick, origin := EditOrigin.internal }] }

/-- Engine with parameters r = 2 and w = 3 (both 0) and reactive nodes
a = 4 and b = 5 whose inboxes hold one pending event each, so both are
drained in the same process_pending round, a before b. -/
def c6_engine : Engine :=
  let e := Engine.new 8
  let r := create_child_parameter 8 e 1 "r" (Value.int 0)
  let w := create_child_parameter 8 r.1 1 "w" (Value.int 0)
  let cma := create_meta w.1 "a"
  let a := create_node 8 cma.1 "Probe" NodeExecution.reactive NodeData.none cma.2
    (some c6_a_behaviour)
  let e := add_child a.1 1 4
  let cmb := create_meta e "b"
  let b := create_node 8 cmb.1 "Probe" NodeExecution.reactive NodeData.none cmb.2
    (some c6_b_behaviour)
  let e := add_child b.1 1 5
  let e := inbox_push e 4 { time := e.time, kind := EventKind.nodeCreated 4 }
  inbox_push e 5 { time := e.time, kind := EventKind.nodeCreated 5 }

/-- Engine whose parameter 2 declares Int bounds 1..=65535 with
clamp = true and holds 9000. -/
def c3_clamp_engine : Engine :=
  let e := Engine.new 8
  let cm := create_meta e "port"
  let p := create_node 8 cm.1 "Parameter" NodeExecution.passive
    (NodeData.parameter
      { value := Value.int 9000, default := some (Value.int 9000), read_only := false,
        update := UpdatePolicy.immediate, save := SavePolicy.delta,
        change := ChangePolicy.valueChange,
        constraints := ValueConstraints.int (some 1) (some 65535) true none })
    cm.2 none
  add_child p.1 1 2

/-- Engine whose parameter 2 declares Int bounds 1..=65535 with
clamp = false and holds 9000. -/
def c3_drop_engine : Engine :=
  let e := Engine.new 8
  let cm := create_meta e "port"
  let p := create_node 8 cm.1 "Parameter" NodeExecution.passive
    (NodeData.parameter
      { value := Value.int 9000, default := some (Value.int 9000), read_only := false,
        update := UpdatePolicy.immediate, save := SavePolicy.delta,
        change := ChangePolicy.valueChange,
        constraints := ValueConstraints.int (some 1) (some 65535) false none })
    cm.2 none
  add_child p.1 1 2

/-- Engine with a container node a = 2 under root 1. -/
def c5_engine : Engine :=
  let e := Engine.new 8
  let cm := create_meta e "a"
  let a := create_node 8 cm.1 "Box" NodeExecution.passive
    (NodeData.container default_container_data) cm.2 none
  add_child a.1 1 2

/-- The result of asking for add_child(a, root): root is a tree ancestor
of a, so this call closes a cycle. -/
def c5_after : Engine := add_child c5_engine 2 1

def mk_param_decl (d : String) (v : Value) (folder : Option String)
    (c : ValueConstraints) : ParamDecl :=
  { decl_id := d, default := v, constraints := c, read_only := false,
    update := UpdatePolicy.immediate, change := ChangePolicy.valueChange,
    save := SavePolicy.delta, semantics := {}, presentation := {},
    folder := folder, behavior := InboxBehavior.coalesce, alias_name := none }

/-- The S3 OscOutput schema in the shape the GoldenNode derive produces:
params intensity, enabled at top level and host, port under folder
connection; the folder and every param are mirrored into
declared_children (node types Folder and Parameter). -/
def osc_schema : NodeSchema :=
  { declared_children := [
      { decl_id := "intensity", node_type := "Parameter",
        default_label := some "intensity", default_enabled := true },
      { decl_id := "enabled", node_type := "Parameter",
        default_label := some "enabled", default_enabled := true },
      { decl_id := "connection", node_type := "Folder",
        default_label := some "connection", default_enabled := true },
      { decl_id := "host", node_type := "Parameter",
        default_label := some "host", default_enabled := true },
      { decl_id := "port", node_type := "Parameter",
        default_label := some "port", default_enabled := true } ],
    potential_slots := [],
    params := [
      mk_param_decl "intensity" (Value.float 0) none ValueConstraints.none,
      mk_param_decl "enabled" (Value.bool true) none ValueConstraints.none,
      mk_param_decl "host" (Value.string "127.0.0.1") (some "connection")
        ValueConstraints.none,
      mk_param_decl "port" (Value.int 9000) (some "connection")
        (ValueConstraints.int (some 1) (some 65535) false none) ],
    folders := [ { decl_id := "connection", label := none, alias_pfx := none } ],
    container := none }

/-- Engine with osc_schema registered and an OscOutput node (id 2)
created and attached under root; auto-instantiation yields folder
connection = 3, parameters intensity = 4, enabled = 5, host = 6,
port = 7. -/
def c7_engine : Engine :=
  let e := register_schema (Engine.new 8) "OscOutput" osc_schema
  let cm := create_meta e "osc_output"
  let osc := create_node 8 cm.1 "OscOutput" NodeExecution.reactive
    (NodeData.container default_container_data) cm.2 none
  add_child osc.1 1 2

/-- c7_engine after enqueuing SetParam host = "10.0.0.1" (EndOfTick) and
running one tick. -/
def c8_engine : Engine :=
  tick 16 (enqueue_edit c7_engine (Edit.setParam 6 (Value.string "10.0.0.1"))
    Propagation.endOfTick EditOrigin.ui)

def c8_project : ProjectFile := export_project 32 c8_engine 1 "0.1"

def rec_children_list : NodeRecord → List NodeRecord
  | NodeRecord.full _ _ _ _ _ children => children
  | NodeRecord.delta _ _ _ _ children => children

def rec_is_delta : NodeRecord → Bool
  | NodeRecord.full _ _ _ _ _ _ => false
  | NodeRecord.delta _ _ _ _ _ => true

/-- The decl-id a record answers to: the node's meta decl-id for a Full
record, the record's own decl-id for a Delta record. -/
def rec_decl_name : NodeRecord → String
  | NodeRecord.full _ _ _ meta _ _ => meta.decl_id
  | NodeRecord.delta decl_id _ _ _ _ => decl_id

/-- The parameter value a record carries: the full parameter payload for
a Full record, the value delta for a Delta record. -/
def rec_param_value : NodeRecord → Option Value
  | NodeRecord.full _ _ _ _ data _ => data.parameter.map (fun p => p.value)
  | NodeRecord.delta _ _ _ value _ => value

def rec_delta_meta : NodeRecord → Option NodeMetaPatch
  | NodeRecord.full _ _ _ _ _ _ => none
  | NodeRecord.delta _ _ meta _ _ => meta

def dummy_record : NodeRecord := NodeRecord.delta "" none none none []

def rec_child (r : NodeRecord) (i : Nat) : NodeRecord :=
  (rec_children_list r).getD i dummy_record

/-- Engine with ValueChange parameter p = 2 and one external NextTick
SetParam on p pending. -/
def c1x_engine : Engine :=
  let e := Engine.new 8
  let p := create_child_parameter 8 e 1 "p" (Value.int 0)
  enqueue_edit p.1 (Edit.setParam 2 (Value.int 9)) Propagation.nextTick EditOrigin.ui

/-- The read-view consistency invariant of the engine: every stored
node's id maps to its current parameter value in param_values (when the
node is a parameter) and to its current metadata in meta_values. -/
def ViewsConsistent (s : Engine) : Prop :=
  ∀ (id : NodeId) (n : Node), alist_get s.nodes id = some n →
    (∀ p : ParameterData, n.data = NodeData.parameter p →
      alist_get s.param_values id = some p.value) ∧
    alist_get s.meta_values id = some n.meta

/-- Slotmap key freshness: every live node key is below the next-key
counter, so a newly minted key never collides with a live node (the
source's SlotMap hands out fresh keys the same way). -/
def KeysFresh (s : Engine) : Prop :=
  ∀ (id : NodeId) (n : Node), alist_get s.nodes id = some n → id < s.next_key

/-- The combined store invariant: consistent read views plus key
freshness. -/
def EngineInv (s : Engine) : Prop := ViewsConsistent s ∧ KeysFresh s

/-- Executable check of ViewsConsistent over the node list. -/
def views_ok (s : Engine) : Bool :=
  s.nodes.all (fun entry =>
    match alist_get s.nodes entry.1 with
    | Option.some n =>
      (match n.data with
       | NodeData.parameter q =>
         decide (alist_get s.param_values entry.1 = some q.value)
       | _ => true) &&
      decide (alist_get s.meta_values entry.1 = some n.meta)
    | Option.none => true)

/-- Executable check of KeysFresh. -/
def keys_ok (s : Engine) : Bool :=
  s.nodes.all (fun entry => decide (entry.1 < s.next_key))

/-- A node-creation callback that preserves the store invariant. -/
def CreatePreserves (create : CreateFn) : Prop :=
  ∀ (s : Engine) (nt : String) (ex : NodeExecution) (d : NodeData) (m : NodeMeta)
    (b : Option NodeBehaviour), EngineInv s → EngineInv (create s nt ex d m b).1

theorem alist_get_put_same {κ α : Type} [DecidableEq κ] (l : List (κ × α)) (k : κ) (v : α) :
    alist_get (alist_put l k v) k = some v := by
  induction l with
  | nil => simp [alist_put, alist_get]
  | cons head tail ih =>
    by_cases h : head.1 = k
    · simp [alist_put, alist_get, h]
    · simp [alist_put, alist_get, h, ih]

theorem alist_get_put_other {κ α : Type} [DecidableEq κ] (l : List (κ × α)) (k k2 : κ)
    (v : α) (h : k2 ≠ k) : alist_get (alist_put l k v) k2 = alist_get l k2 := by
  induction l with
  | nil => simp [alist_put, alist_get, Ne.symm h]
  | cons head tail ih =>
    obtain ⟨hk, hv⟩ := head
    by_cases hh : hk = k
    · subst hh
      simp [alist_put, alist_get, Ne.symm h]
    · simp [alist_put, alist_get, hh, ih]

theorem alist_get_append_one {κ α : Type} [DecidableEq κ] (l : List (κ × α)) (k k2 : κ)
    (v : α) :
    alist_get (l ++ [(k, v)]) k2 =
      match alist_get l k2 with
      | Option.some w => some w
      | Option.none => if k = k2 then some v else none := by
  induction l with
  | nil => simp [alist_get]
  | cons head tail ih =>
    by_cases h : head.1 = k2
    · simp [alist_get, h]
    · simp [alist_get, h, ih]

theorem update_node_absent (s : Engine) (id : NodeId) (f : Node → Node)
    (h : alist_get s.nodes id = none) : update_node s id f = s := by
  simp [update_node, h]

theorem update_node_fields (s : Engine) (id : NodeId) (f : Node → Node) :
    (update_node s id f).inboxes = s.inboxes ∧
    (update_node s id f).param_values = s.param_values ∧
    (update_node s id f).meta_values = s.meta_values ∧
    (update_node s id f).subscriptions = s.subscriptions ∧
    (update_node s id f).event_log = s.event_log ∧
    (update_node s id f).time = s.time ∧
    (update_node s id f).pending_edits = s.pending_edits ∧
    (update_node s id f).schema = s.schema := by
  unfold update_node
  cases alist_get s.nodes id <;> simp

theorem update_node_get_same (s : Engine) (id : NodeId) (f : Node → Node) (n : Node)
    (h : alist_get s.nodes id = some n) :
    alist_get (update_node s id f).nodes id = some (f n) := by
  simp [update_node, h, alist_get_put_same]

theorem update_node_get_other (s : Engine) (id j : NodeId) (f : Node → Node) (h : j ≠ id) :
    alist_get (update_node s id f).nodes j = alist_get s.nodes j := by
  unfold update_node
  cases hc : alist_get s.nodes id <;> simp [alist_get_put_other _ _ _ _ h]

theorem inbox_push_fields (s : Engine) (t : NodeId) (e : Event) :
    (inbox_push s t e).nodes = s.nodes ∧
    (inbox_push s t e).param_values = s.param_values ∧
    (inbox_push s t e).meta_values = s.meta_values ∧
    (inbox_push s t e).subscriptions = s.subscriptions ∧
    (inbox_push s t e).event_log = s.event_log ∧
    (inbox_push s t e).time = s.time ∧
    (inbox_push s t e).pending_edits = s.pending_edits ∧
    (inbox_push s t e).schema = s.schema := by
  unfold inbox_push
  cases alist_get s.inboxes t <;> simp

theorem inbox_of_push_same (s : Engine) (t : NodeId) (e : Event) :
    inbox_of (inbox_push s t e) t = inbox_of s t ++ [e] := by
  unfold inbox_push inbox_of
  cases hc : alist_get s.inboxes t with
  | none =>
    simp [hc, alist_get_append_one]
  | some events =>
    simp [hc, alist_get_put_same]

theorem inbox_of_push_other (s : Engine) (t t2 : NodeId) (e : Event) (h : t2 ≠ t) :
    inbox_of (inbox_push s t e) t2 = inbox_of s t2 := by
  unfold inbox_push inbox_of
  cases hc : alist_get s.inboxes t with
  | none =>
    simp [alist_get_append_one]
    cases hc2 : alist_get s.inboxes t2 <;> simp [Ne.symm h]
  | some events =>
    simp [alist_get_put_other _ _ _ _ h]

/-- Event delivery touches only the inboxes; all other engine fields are
untouched. same_core collects the untouched fields. -/
def same_core (a b : Engine) : Prop :=
  a.nodes = b.nodes ∧ a.param_values = b.param_values ∧ a.meta_values = b.meta_values ∧
  a.subscriptions = b.subscriptions ∧ a.event_log = b.event_log ∧ a.time = b.time ∧
  a.pending_edits = b.pending_edits ∧ a.schema = b.schema

theorem same_core_refl (a : Engine) : same_core a a := by
  simp [same_core]

theorem same_core_trans {a b c : Engine} (h1 : same_core a b) (h2 : same_core b c) :
    same_core a c := by
  obtain ⟨n1, p1, m1, s1, e1, t1, q1, c1⟩ := h1
  obtain ⟨n2, p2, m2, s2, e2, t2, q2, c2⟩ := h2
  exact ⟨n1.trans n2, p1.trans p2, m1.trans m2, s1.trans s2, e1.trans e2,
    t1.trans t2, q1.trans q2, c1.trans c2⟩

theorem inbox_push_same_core (s : Engine) (t : NodeId) (e : Event) :
    same_core (inbox_push s t e) s := by
  obtain ⟨h1, h2, h3, h4, h5, h6, h7, h8⟩ := inbox_push_fields s t e
  exact ⟨h1, h2, h3, h4, h5, h6, h7, h8⟩

theorem foldl_push_same_core (ts : List NodeId) (e : Event) :
    ∀ s : Engine, same_core (ts.foldl (fun acc t => inbox_push acc t e) s) s := by
  induction ts with
  | nil => intro s; exact same_core_refl s
  | cons t rest ih =>
    intro s
    exact same_core_trans (ih (inbox_push s t e)) (inbox_push_same_core s t e)

theorem deliver_own_same_core (s : Engine) (e : Event) :
    same_core (deliver_to_own_targets s e) s :=
  foldl_push_same_core (event_targets e.kind) e s

theorem deliver_subscribers_same_core (s : Engine) (e : Event) :
    same_core (deliver_to_subscribers s e) s := by
  unfold deliver_to_subscribers
  generalize s.subscriptions = specs
  induction specs generalizing s with
  | nil => exact same_core_refl s
  | cons spec rest ih =>
    simp only [List.foldl]
    by_cases h : matches_filter s.nodes spec.filter e
    · simp only [h, if_pos]
      exact same_core_trans (ih (inbox_push s spec.subscriber e))
        (inbox_push_same_core s spec.subscriber e)
    · simp only [h, if_neg, Bool.false_eq_true, not_false_eq_true]
      exact ih s

theorem deliver_bubbled_same_core (s : Engine) (e : Event) :
    same_core (deliver_bubbled s e) s := by
  unfold deliver_bubbled
  cases h1 : event_bubble_source e.kind with
  | none => exact same_core_refl s
  | some src =>
    show same_core
      (match (alist_get s.nodes src).bind (fun n => n.parent) with
       | Option.none => s
       | Option.some parent => inbox_push s parent e) s
    cases h2 : (alist_get s.nodes src).bind (fun n => n.parent) with
    | none => exact same_core_refl s
    | some parent => exact inbox_push_same_core s parent e

theorem deliver_event_same_core (s : Engine) (e : Event) :
    same_core (deliver_event s e) s := by
  unfold deliver_event
  exact same_core_trans
    (same_core_trans (deliver_bubbled_same_core _ e) (deliver_subscribers_same_core _ e))
    (deliver_own_same_core s e)

theorem deliver_event_nodes (s : Engine) (e : Event) :
    (deliver_event s e).nodes = s.nodes := (deliver_event_same_core s e).1

theorem deliver_event_params (s : Engine) (e : Event) :
    (deliver_event s e).param_values = s.param_values := (deliver_event_same_core s e).2.1

theorem deliver_event_metas (s : Engine) (e : Event) :
    (deliver_event s e).meta_values = s.meta_values := (deliver_event_same_core s e).2.2.1

theorem deliver_event_subs (s : Engine) (e : Event) :
    (deliver_event s e).subscriptions = s.subscriptions :=
  (deliver_event_same_core s e).2.2.2.1

theorem deliver_event_log (s : Engine) (e : Event) :
    (deliver_event s e).event_log = s.event_log := (deliver_event_same_core s e).2.2.2.2.1

theorem deliver_event_time (s : Engine) (e : Event) :
    (deliver_event s e).time = s.time := (deliver_event_same_core s e).2.2.2.2.2.1

theorem deliver_event_pending (s : Engine) (e : Event) :
    (deliver_event s e).pending_edits = s.pending_edits :=
  (deliver_event_same_core s e).2.2.2.2.2.2.1

theorem deliver_event_schema (s : Engine) (e : Event) :
    (deliver_event s e).schema = s.schema := (deliver_event_same_core s e).2.2.2.2.2.2.2

/-- Behaviour of every engine field under emit_event: the event is
stamped with the pre-state time, seq is bumped, the log is appended with
the 4096 cap, everything else outside the inboxes is unchanged. -/
theorem emit_event_fields (s : Engine) (k : EventKind) :
    (emit_event s k).nodes = s.nodes ∧
    (emit_event s k).param_values = s.param_values ∧
    (emit_event s k).meta_values = s.meta_values ∧
    (emit_event s k).subscriptions = s.subscriptions ∧
    (emit_event s k).pending_edits = s.pending_edits ∧
    (emit_event s k).schema = s.schema ∧
    (emit_event s k).time = { s.time with seq := s.time.seq + 1 } ∧
    (emit_event s k).event_log =
      (if (s.event_log ++ [(⟨s.time, k⟩ : Event)]).length > 4096 then
        (s.event_log ++ [(⟨s.time, k⟩ : Event)]).drop 1
      else s.event_log ++ [(⟨s.time, k⟩ : Event)]) := by
  unfold emit_event
  refine ⟨?_, ?_, ?_, ?_, ?_, ?_, ?_, ?_⟩ <;>
    simp [deliver_event_nodes, deliver_event_params, deliver_event_metas,
      deliver_event_subs, deliver_event_pending, deliver_event_schema,
      deliver_event_time, deliver_event_log]

/-- C1 counterexample: in c1_engine the root behaviour produces a
SetParam on node 3 with NextTick propagation during tick 1, yet after
that same tick() the value is already assigned, a ParamChanged for it is
logged with tick index 1, and the external pending queue is empty — the
edit was not held until the next tick. -/
theorem c1_counterexample :
    alist_get c1_engine.param_values 3 = some (Value.int 0) ∧
    alist_get (tick 16 c1_engine).param_values 3 = some (Value.int 7) ∧
    (tick 16 c1_engine).pending_edits = [] ∧
    (tick 16 c1_engine).event_log.get? 6 =
      some ⟨⟨1, 0, 1⟩, EventKind.paramChanged 3 (Value.int 7)⟩ := by
  refine ⟨?_, ?_, ?_, ?_⟩ <;> decide

/-- C1 amended: an edit enqueued externally through enqueue_edit (with
any propagation, NextTick included) is only held in the pending queue —
enqueue mutates nothing else — and the queue is drained and applied at
step 2 of the next tick(), as the c1x_engine run shows: the pending
NextTick SetParam is applied during that tick (first event of tick 1)
and the queue is empty afterwards. (Behaviour-produced edits are not
covered: apply_edit_requests applies them in the producing tick.) -/
theorem c1_amended :
    (∀ (s : Engine) (edit : Edit) (prop : Propagation) (origin : EditOrigin),
      (enqueue_edit s edit prop origin).nodes = s.nodes ∧
      (enqueue_edit s edit prop origin).param_values = s.param_values ∧
      (enqueue_edit s edit prop origin).event_log = s.event_log ∧
      (enqueue_edit s edit prop origin).pending_edits =
        s.pending_edits ++ [{ edit := edit, propagation := prop, origin := origin }]) ∧
    alist_get c1x_engine.param_values 2 = some (Value.int 0) ∧
    alist_get (tick 16 c1x_engine).param_values 2 = some (Value.int 9) ∧
    (tick 16 c1x_engine).event_log.get? 3 =
      some ⟨⟨1, 0, 0⟩, EventKind.paramChanged 2 (Value.int 9)⟩ ∧
    (tick 16 c1x_engine).pending_edits = [] := by
  refine ⟨fun s edit prop origin => ⟨rfl, rfl, rfl, rfl⟩, ?_, ?_, ?_, ?_⟩ <;> decide

/-- C2: the event times emitted within one tick of c2_engine are not
strictly increasing: the event at log index 7 carries time (1,1,1) while
the later event at index 8 carries time (1,1,0), because the first
stabilization round assigns micro := 1 and seq := 0 although the
immediate flush of step 2 had already used micro 1. -/
theorem c2_event_time_violation :
    (tick 16 c2_engine).event_log.get? 7 =
      some ⟨⟨1, 1, 1⟩, EventKind.paramChanged 3 (Value.int 1)⟩ ∧
    (tick 16 c2_engine).event_log.get? 8 =
      some ⟨⟨1, 1, 0⟩, EventKind.paramChanged 3 (Value.int 1)⟩ ∧
    EventTime.ltb ⟨1, 1, 1⟩ ⟨1, 1, 0⟩ = false := by
  refine ⟨?_, ?_, ?_⟩ <;> decide

/-- C3 counterexample: parameter 2 of c3_clamp_engine declares Int
bounds 1..=65535 with clamp = true and holds 9000; setting it to 0
stores 0 as-is instead of clamping. In c3_drop_engine the same bounds
carry clamp = false; setting 0 is not dropped: the value mutates to 0
and a ParamChanged is emitted. -/
theorem c3_counterexample :
    alist_get c3_clamp_engine.param_values 2 = some (Value.int 9000) ∧
    alist_get (apply_set_param c3_clamp_engine 2 (Value.int 0)).param_values 2 =
      some (Value.int 0) ∧
    alist_get (apply_set_param c3_drop_engine 2 (Value.int 0)).param_values 2 =
      some (Value.int 0) ∧
    (apply_set_param c3_drop_engine 2 (Value.int 0)).event_log.get? 3 =
      some ⟨⟨0, 0, 3⟩, EventKind.paramChanged 2 (Value.int 0)⟩ := by
  refine ⟨?_, ?_, ?_, ?_⟩ <;> decide

/-- C5 counterexample: in c5_engine node 1 (the root) is the tree parent
of node 2; the call add_child(2, 1) would create a cycle, yet it is not
rejected: node 1's parent link changes to 2 and a ChildAdded event is
emitted. -/
theorem c5_counterexample :
    parent_of c5_engine 2 = some (some 1) ∧
    parent_of c5_engine 1 = some none ∧
    parent_of c5_after 1 = some (some 2) ∧
    c5_after.event_log.length = c5_engine.event_log.length + 1 ∧
    c5_after.event_log.getLast? = some ⟨⟨0, 0, 3⟩, EventKind.childAdded 2 1⟩ := by
  refine ⟨?_, ?_, ?_, ?_, ?_⟩ <;> decide

/-- C6 counterexample: in c6_engine both reactive nodes 4 and 5 are
drained in the same process_pending round (4 first); node 4 writes
parameter 2 from 0 to 5, and node 5 — invoked later in the same round —
already reads 5 and copies it into parameter 3. Reads therefore do not
reflect the engine state as of the start of the round. -/
theorem c6_counterexample :
    alist_get c6_engine.param_values 2 = some (Value.int 0) ∧
    alist_get c6_engine.param_values 3 = some (Value.int 0) ∧
    alist_get (process_pending 8 EnginePhase.engineTick c6_engine).param_values 2 =
      some (Value.int 5) ∧
    alist_get (process_pending 8 EnginePhase.engineTick c6_engine).param_values 3 =
      some (Value.int 5) := by
  refine ⟨?_, ?_, ?_, ?_⟩ <;> decide

/-- C6 amended: within one reactive drain round the read views handed to
a behaviour are the engine state at the start of that behaviour's own
invocation, not the start of the round: draining l1 ++ l2 first drains
l1 completely (applying its edits) and continues on l2 from the
resulting state, and the invocation of the head node builds its context
(through invocation_edits, whose views are the current param_values and
meta_values) before its own edits are applied. -/
theorem c6_amended :
    (∀ (l1 : List NodeId) (m : Nat) (phase : EnginePhase) (s : Engine) (l2 : List NodeId),
      process_pending_order (m + l1.length) phase s (l1 ++ l2)
        = process_pending_order m phase
            (process_pending_order (m + l1.length) phase s l1) l2) ∧
    (∀ (f : Nat) (phase : EnginePhase) (s : Engine) (n : NodeId) (rest : List NodeId),
      process_pending_order (f + 1) phase s (n :: rest)
        = process_pending_order f phase
            (apply_edit_requests f (take_inbox s n).1
              (invocation_edits phase (take_inbox s n).1 n (take_inbox s n).2)) rest) := by
  constructor
  · intro l1
    induction l1 with
    | nil => intro m phase s l2; simp [process_pending_order]
    | cons a t ih =>
      intro m phase s l2
      simp only [List.length_cons, List.cons_append, Nat.add_succ, process_pending_order]
      exact ih m phase _ l2
  · intro f phase s n rest
    rfl

set_option maxHeartbeats 4000000 in
/-- C7: declared-child materialization runs in three phases in order —
folders (instantiate_declared_children_from_schema first runs
inst_folders), then parameters (inst_params), then other declared
children (inst_children) — and on the S3 OscOutput schema this yields
children connection (Folder), intensity, enabled under the new node and
host, port under the connection folder; re-running ensure_folder_path on
the existing chain returns the existing folder 3 without any mutation,
and re-running the whole materialization still leaves exactly one direct
child with decl-id connection. -/
theorem c7_materialization :
    (∀ (fuel : Nat) (s : Engine) (parent : NodeId) (sch : NodeSchema),
      instantiate_declared_children_from_schema fuel s parent sch =
        inst_children_with (create_node fuel)
          (inst_params_with (create_node fuel)
            (inst_folders_with (create_node fuel) s parent sch.folders []).1 parent
            (inst_folders_with (create_node fuel) s parent sch.folders []).2 sch.params)
          parent sch.declared_children) ∧
    (children_of c7_engine 2).map (fun i => (decl_of c7_engine i, type_of c7_engine i)) =
      [(some "connection", some "Folder"), (some "intensity", some "Parameter"),
       (some "enabled", some "Parameter")] ∧
    (children_of c7_engine 3).map (fun i => (decl_of c7_engine i, type_of c7_engine i)) =
      [(some "host", some "Parameter"), (some "port", some "Parameter")] ∧
    (ensure_folder_path 8 c7_engine 2 ["connection"] "" "connection" none).2 = 3 ∧
    (ensure_folder_path 8 c7_engine 2 ["connection"] "" "connection" none).1.nodes.length =
      c7_engine.nodes.length ∧
    (ensure_folder_path 8 c7_engine 2 ["connection"] "" "connection" none).1.event_log.length =
      c7_engine.event_log.length ∧
    ((children_of (instantiate_declared_children_from_schema 8 c7_engine 2 osc_schema) 2).filter
      (fun i =>
        decl_of (instantiate_declared_children_from_schema 8 c7_engine 2 osc_schema) i
          == some "connection")).length = 1 := by
  refine ⟨fun fuel s parent sch => rfl, ?_, ?_, ?_, ?_, ?_, ?_⟩ <;> decide

set_option maxHeartbeats 4000000 in
/-- C8 counterexample: in the exported S6 project the Delta record for
connection does not contain a Delta record for host — both host and port
are exported as Full records (their direct parent is the Folder node,
whose node type has no registered schema), and the unchanged port child
is present rather than elided. -/
theorem c8_counterexample :
    rec_is_delta (rec_child (rec_child c8_project.root 0) 0) = true ∧
    rec_decl_name (rec_child (rec_child c8_project.root 0) 0) = "connection" ∧
    (rec_children_list (rec_child (rec_child c8_project.root 0) 0)).map rec_is_delta =
      [false, false] ∧
    (rec_children_list (rec_child (rec_child c8_project.root 0) 0)).map rec_decl_name =
      ["host", "port"] := by
  refine ⟨?_, ?_, ?_, ?_⟩ <;> decide

set_option maxHeartbeats 4000000 in
/-- C8 amended: the export of the S6 tree produces the project root as a
Full record with a single Full child for the OscOutput node; its only
child record is a Delta for connection (intensity and enabled are elided
as unchanged declared parameters) carrying no value and no meta patch;
connection's children are Full records for host — carrying the full
parameter payload with value String("10.0.0.1") — and for port
(value Int 9000), which is not elided. -/
theorem c8_amended :
    rec_is_delta c8_project.root = false ∧
    (rec_children_list c8_project.root).map rec_is_delta = [false] ∧
    (rec_children_list (rec_child c8_project.root 0)).map
      (fun r => (rec_is_delta r, rec_decl_name r)) = [(true, "connection")] ∧
    rec_param_value (rec_child (rec_child c8_project.root 0) 0) = none ∧
    rec_delta_meta (rec_child (rec_child c8_project.root 0) 0) = none ∧
    (rec_children_list (rec_child (rec_child c8_project.root 0) 0)).map
      (fun r => (rec_is_delta r, rec_decl_name r, rec_param_value r)) =
      [(false, "host", some (Value.string "10.0.0.1")),
       (false, "port", some (Value.int 9000))] := by
  refine ⟨?_, ?_, ?_, ?_, ?_, ?_⟩ <;> decide

theorem update_node_inboxes (s : Engine) (id : NodeId) (f : Node → Node) :
    (update_node s id f).inboxes = s.inboxes := (update_node_fields s id f).1

theorem update_node_params (s : Engine) (id : NodeId) (f : Node → Node) :
    (update_node s id f).param_values = s.param_values := (update_node_fields s id f).2.1

theorem update_node_metas (s : Engine) (id : NodeId) (f : Node → Node) :
    (update_node s id f).meta_values = s.meta_values := (update_node_fields s id f).2.2.1

theorem update_node_subs (s : Engine) (id : NodeId) (f : Node → Node) :
    (update_node s id f).subscriptions = s.subscriptions :=
  (update_node_fields s id f).2.2.2.1

theorem update_node_log (s : Engine) (id : NodeId) (f : Node → Node) :
    (update_node s id f).event_log = s.event_log := (update_node_fields s id f).2.2.2.2.1

theorem update_node_time (s : Engine) (id : NodeId) (f : Node → Node) :
    (update_node s id f).time = s.time := (update_node_fields s id f).2.2.2.2.2.1

theorem emit_event_nodes (s : Engine) (k : EventKind) :
    (emit_event s k).nodes = s.nodes := (emit_event_fields s k).1

theorem emit_event_params (s : Engine) (k : EventKind) :
    (emit_event s k).param_values = s.param_values := (emit_event_fields s k).2.1

theorem emit_event_metas (s : Engine) (k : EventKind) :
    (emit_event s k).meta_values = s.meta_values := (emit_event_fields s k).2.2.1

theorem emit_event_subs (s : Engine) (k : EventKind) :
    (emit_event s k).subscriptions = s.subscriptions := (emit_event_fields s k).2.2.2.1

theorem emit_event_pending (s : Engine) (k : EventKind) :
    (emit_event s k).pending_edits = s.pending_edits := (emit_event_fields s k).2.2.2.2.1

theorem emit_event_schema (s : Engine) (k : EventKind) :
    (emit_event s k).schema = s.schema := (emit_event_fields s k).2.2.2.2.2.1

/-- With fewer than 4096 logged events, emit_event appends exactly one
event stamped with the pre-state time. -/
theorem emit_event_log_small (s : Engine) (k : EventKind)
    (h : s.event_log.length < 4096) :
    (emit_event s k).event_log = s.event_log ++ [(⟨s.time, k⟩ : Event)] := by
  rw [(emit_event_fields s k).2.2.2.2.2.2.2, if_neg]
  simp
  omega

/-- add_child always factors as one emit_event of ChildAdded over a
link-rewiring state s2 that leaves every non-tree field unchanged; when
the child exists and differs from the parent, its parent link in s2 is
set to the parent. -/
theorem add_child_emit_shape (s : Engine) (p c : NodeId) :
    ∃ s2 : Engine, add_child s p c = emit_event s2 (EventKind.childAdded p c) ∧
      s2.event_log = s.event_log ∧ s2.time = s.time ∧ s2.inboxes = s.inboxes ∧
      s2.subscriptions = s.subscriptions ∧ s2.param_values = s.param_values ∧
      s2.meta_values = s.meta_values ∧
      (∀ cn, alist_get s.nodes c = some cn → c ≠ p →
        ∃ m, alist_get s2.nodes c = some m ∧ m.parent = some p) := by
  unfold add_child
  cases hlc : (alist_get s.nodes p).bind (fun n => n.last_child) with
  | none =>
    refine ⟨update_node
        (update_node s p (fun q =>
          { q with first_child := some c, last_child := some c })) c
        (fun q => { q with parent := some p, prev_sibling := none, next_sibling := none }),
      rfl, ?_, ?_, ?_, ?_, ?_, ?_, ?_⟩
    · rw [update_node_log, update_node_log]
    · rw [update_node_time, update_node_time]
    · rw [update_node_inboxes, update_node_inboxes]
    · rw [update_node_subs, update_node_subs]
    · rw [update_node_params, update_node_params]
    · rw [update_node_metas, update_node_metas]
    · intro cn hc hne
      have h1 : alist_get (update_node s p (fun q =>
          { q with first_child := some c, last_child := some c })).nodes c = some cn := by
        rw [update_node_get_other _ _ _ _ hne]
        exact hc
      exact ⟨_, update_node_get_same _ _ _ _ h1, rfl⟩
  | some last_child =>
    refine ⟨update_node (update_node
        (update_node s p (fun q => { q with last_child := some c })) last_child
        (fun q => { q with next_sibling := some c })) c
        (fun q =>
          { q with
            parent := some p
            prev_sibling := some last_child
            next_sibling := none }),
      rfl, ?_, ?_, ?_, ?_, ?_, ?_, ?_⟩
    · rw [update_node_log, update_node_log, update_node_log]
    · rw [update_node_time, update_node_time, update_node_time]
    · rw [update_node_inboxes, update_node_inboxes, update_node_inboxes]
    · rw [update_node_subs, update_node_subs, update_node_subs]
    · rw [update_node_params, update_node_params, update_node_params]
    · rw [update_node_metas, update_node_metas, update_node_metas]
    · intro cn hc hne
      have h1 : alist_get (update_node s p
          (fun q => { q with last_child := some c })).nodes c = some cn := by
        rw [update_node_get_other _ _ _ _ hne]
        exact hc
      by_cases hcl : c = last_child
      · subst hcl
        have h2 := update_node_get_same _ c (fun q => { q with next_sibling := some c }) _ h1
        exact ⟨_, update_node_get_same _ _ _ _ h2, rfl⟩
      · have h2 : alist_get (update_node (update_node s p
            (fun q => { q with last_child := some c })) last_child
            (fun q => { q with next_sibling := some c })).nodes c = some cn := by
          rw [update_node_get_other _ _ _ _ hcl]
          exact h1
        exact ⟨_, update_node_get_same _ _ _ _ h2, rfl⟩

/-- C5 amended: add_child performs no cycle check at all: for every
engine state and any parent and existing child — including a child that
is the parent itself or one of its tree ancestors, where the call closes
a cycle — the call proceeds as a plain append: it emits exactly one
ChildAdded event stamped with the current time and rewires the child's
parent link to the parent. Nothing is rejected and no tree invariant is
re-established. -/
theorem c5_amended (s : Engine) (p c : NodeId) (cn : Node)
    (hc : alist_get s.nodes c = some cn) (hne : c ≠ p)
    (hlen : s.event_log.length < 4096) :
    (add_child s p c).event_log =
      s.event_log ++ [(⟨s.time, EventKind.childAdded p c⟩ : Event)] ∧
    parent_of (add_child s p c) c = some (some p) := by
  obtain ⟨s2, heq, hlog, htime, _, _, _, _, hpar⟩ := add_child_emit_shape s p c
  constructor
  · rw [heq, emit_event_log_small]
    · rw [hlog, htime]
    · rw [hlog]
      exact hlen
  · obtain ⟨m, hm, hmp⟩ := hpar cn hc hne
    rw [heq]
    unfold parent_of
    rw [emit_event_nodes, hm]
    simp [hmp]

/-- C5 amended witness at the concrete cycle-closing call of c5_after. -/
theorem c5_amended_witness :
    (add_child c5_engine 2 1).event_log =
      c5_engine.event_log ++ [(⟨c5_engine.time, EventKind.childAdded 2 1⟩ : Event)] ∧
    parent_of (add_child c5_engine 2 1) 1 = some (some 2) :=
  c5_amended c5_engine 2 1 _ rfl (by decide) (by decide)

/-- C3 amended: set_param never consults the parameter's declared
ValueConstraints: no clamping and no constraint-based drop exists.
For every engine, target node holding a parameter, and requested value
— whatever the constraints field holds, even a value far outside its
declared bounds — if the change policy accepts the write (policy Always,
or the value differs) then the requested value is assigned verbatim,
both in the node payload and in the shared param_values view; the write
is skipped only by the ValueChange equal-value rule, never by a
constraint. -/
theorem c3_amended (s : Engine) (n : NodeId) (v : Value) (node : Node)
    (p : ParameterData) (hn : alist_get s.nodes n = some node)
    (hd : node.data = NodeData.parameter p) :
    (p.change = ChangePolicy.always ∨ p.value ≠ v →
      set_param s n v =
        ({ s with
            nodes := alist_put s.nodes n
              { node with data := NodeData.parameter { p with value := v } },
            param_values := alist_put s.param_values n v }, true) ∧
      alist_get (set_param s n v).1.param_values n = some v) ∧
    (p.change = ChangePolicy.valueChange → p.value = v →
      set_param s n v = (s, false)) := by
  constructor
  · intro hch
    have hc :
        (match p.change with
         | ChangePolicy.always => true
         | ChangePolicy.valueChange => !decide (p.value = v)) = true := by
      rcases hch with h | h
      · rw [h]
      · cases p.change <;> simp [h]
    have hmain :
        set_param s n v =
          ({ s with
              nodes := alist_put s.nodes n
                { node with data := NodeData.parameter { p with value := v } },
              param_values := alist_put s.param_values n v }, true) := by
      simp [set_param, hn, hd, hc]
    refine ⟨hmain, ?_⟩
    rw [hmain]
    exact alist_get_put_same _ _ _
  · intro hvc heq
    simp [set_param, hn, hd, hvc, heq]

/-- C3 amended witness: the clamp-requesting parameter of c3_clamp_engine
accepts the out-of-range value 999999 verbatim. -/
theorem c3_amended_witness :
    alist_get (set_param c3_clamp_engine 2 (Value.int 999999)).1.param_values 2 =
      some (Value.int 999999) :=
  ((c3_amended c3_clamp_engine 2 (Value.int 999999) _ _ rfl rfl).1
    (Or.inr (by decide))).2

/-- When the target is missing, apply_set_param is the identity. -/
theorem apply_set_param_miss_node (s : Engine) (n : NodeId) (v : Value)
    (hn : alist_get s.nodes n = none) : apply_set_param s n v = s := by
  simp [apply_set_param, set_param, hn]

/-- When the target's data is not Parameter, apply_set_param is the
identity. -/
theorem apply_set_param_nonparam (s : Engine) (n : NodeId) (v : Value) (node : Node)
    (hn : alist_get s.nodes n = some node)
    (hnp : ∀ q : ParameterData, node.data ≠ NodeData.parameter q) :
    apply_set_param s n v = s := by
  have hsp : set_param s n v = (s, false) := by
    cases hd : node.data with
    | parameter q => exact absurd hd (hnp q)
    | none => simp [set_param, hn, hd]
    | container c => simp [set_param, hn, hd]
    | custom => simp [set_param, hn, hd]
    | manager m => simp [set_param, hn, hd]
  simp [apply_set_param, hsp]

/-- When the target parameter has policy ValueChange and the value is
unchanged, apply_set_param is the identity. -/
theorem apply_set_param_skip (s : Engine) (n : NodeId) (v : Value) (node : Node)
    (q : ParameterData) (hn : alist_get s.nodes n = some node)
    (hd : node.data = NodeData.parameter q)
    (hvc : q.change = ChangePolicy.valueChange) (heq : q.value = v) :
    apply_set_param s n v = s := by
  simp [apply_set_param, set_param, hn, hd, hvc, heq]

/-- When the change policy accepts the write, apply_set_param stores the
value in the node payload and the param_values view, then emits one
ParamChanged event. -/
theorem apply_set_param_hit (s : Engine) (n : NodeId) (v : Value) (node : Node)
    (q : ParameterData) (hn : alist_get s.nodes n = some node)
    (hd : node.data = NodeData.parameter q)
    (hc : (match q.change with
           | ChangePolicy.always => true
           | ChangePolicy.valueChange => !decide (q.value = v)) = true) :
    apply_set_param s n v =
      emit_event
        { s with
            nodes := alist_put s.nodes n
              { node with data := NodeData.parameter { q with value := v } },
            param_values := alist_put s.param_values n v }
        (EventKind.paramChanged n v) := by
  simp [apply_set_param, set_param, hn, hd, hc]

/-- C4 confirmed: applying a SetParam edit drops silently when the
target node is missing or its data is not Parameter; with policy Always
it assigns the value and emits exactly one ParamChanged; with policy
ValueChange it is the identity when the new value equals the current
one and otherwise assigns and emits exactly one ParamChanged, so a
second SetParam with the same payload is absorbed (idempotence: at most
one ParamChanged for two equal successive writes). The last conjunct
ties apply_edit_requests to this apply step for a drained SetParam
edit. -/
theorem c4_apply_set_param_semantics (s : Engine) (n : NodeId) (v : Value) :
    (alist_get s.nodes n = none → apply_set_param s n v = s) ∧
    (∀ node, alist_get s.nodes n = some node →
      ((∀ q : ParameterData, node.data ≠ NodeData.parameter q) →
        apply_set_param s n v = s) ∧
      (∀ q : ParameterData, node.data = NodeData.parameter q →
        (q.change = ChangePolicy.always → s.event_log.length < 4096 →
          (apply_set_param s n v).event_log =
            s.event_log ++ [(⟨s.time, EventKind.paramChanged n v⟩ : Event)] ∧
          alist_get (apply_set_param s n v).param_values n = some v) ∧
        (q.change = ChangePolicy.valueChange →
          (q.value = v → apply_set_param s n v = s) ∧
          (q.value ≠ v → s.event_log.length < 4096 →
            (apply_set_param s n v).event_log =
              s.event_log ++ [(⟨s.time, EventKind.paramChanged n v⟩ : Event)] ∧
            alist_get (apply_set_param s n v).param_values n = some v) ∧
          apply_set_param (apply_set_param s n v) n v = apply_set_param s n v))) ∧
    (∀ (fuel : Nat) (o : EditOrigin),
      apply_edit_requests (fuel + 1) s
        [{ edit := Edit.setParam n v, propagation := Propagation.endOfTick,
           origin := o }] = apply_set_param s n v) := by
  refine ⟨fun hn => apply_set_param_miss_node s n v hn, ?_, ?_⟩
  · intro node hnode
    refine ⟨fun hnp => apply_set_param_nonparam s n v node hnode hnp, ?_⟩
    intro q hq
    constructor
    · intro ha hlen
      have hc : (match q.change with
          | ChangePolicy.always => true
          | ChangePolicy.valueChange => !decide (q.value = v)) = true := by
        rw [ha]
      have hap := apply_set_param_hit s n v node q hnode hq hc
      constructor
      · rw [hap, emit_event_log_small]
        exact hlen
      · rw [hap, emit_event_params]
        exact alist_get_put_same _ _ _
    · intro hvc
      refine ⟨fun heq => apply_set_param_skip s n v node q hnode hq hvc heq, ?_, ?_⟩
      · intro hne hlen
        have hc : (match q.change with
            | ChangePolicy.always => true
            | ChangePolicy.valueChange => !decide (q.value = v)) = true := by
          rw [hvc]
          simp [hne]
        have hap := apply_set_param_hit s n v node q hnode hq hc
        constructor
        · rw [hap, emit_event_log_small]
          exact hlen
        · rw [hap, emit_event_params]
          exact alist_get_put_same _ _ _
      · by_cases hveq : q.value = v
        · have h0 := apply_set_param_skip s n v node q hnode hq hvc hveq
          rw [h0]
          exact h0
        · have hc : (match q.change with
              | ChangePolicy.always => true
              | ChangePolicy.valueChange => !decide (q.value = v)) = true := by
            rw [hvc]
            simp [hveq]
          have hap := apply_set_param_hit s n v node q hnode hq hc
          have hn1 : alist_get (apply_set_param s n v).nodes n =
              some { node with data := NodeData.parameter { q with value := v } } := by
            rw [hap, emit_event_nodes]
            exact alist_get_put_same _ _ _
          exact apply_set_param_skip (apply_set_param s n v) n v _ _ hn1 rfl hvc rfl
  · intro fuel o
    simp [apply_edit_requests]

/-- C4 witness at the ValueChange parameter of c3_drop_engine: a
repeated equal write is absorbed, and a drained SetParam edit equals
the apply step. -/
theorem c4_witness :
    apply_set_param (apply_set_param c3_drop_engine 2 (Value.int 5)) 2 (Value.int 5) =
      apply_set_param c3_drop_engine 2 (Value.int 5) ∧
    apply_edit_requests 3 c3_drop_engine
        [{ edit := Edit.setParam 2 (Value.int 5), propagation := Propagation.endOfTick,
           origin := EditOrigin.ui }] = apply_set_param c3_drop_engine 2 (Value.int 5) :=
  ⟨(((c4_apply_set_param_semantics c3_drop_engine 2 (Value.int 5)).2.1 _ rfl).2 _
      rfl).2 rfl |>.2.2,
   (c4_apply_set_param_semantics c3_drop_engine 2 (Value.int 5)).2.2 2 EditOrigin.ui⟩

/-- Delivering a ChildAdded event over a state whose child node's
parent link is already the parent and with no subscriptions pushes the
event into the parent's inbox twice: once by own-target fan-out and
once by the bubble hop from the child. -/
theorem deliver_child_added_inbox (s3 : Engine) (p c : NodeId) (ev : Event) (m : Node)
    (hkind : ev.kind = EventKind.childAdded p c)
    (hm : alist_get s3.nodes c = some m) (hmp : m.parent = some p)
    (hsubs : s3.subscriptions = []) (hne : c ≠ p) :
    inbox_of (deliver_event s3 ev) p = inbox_of s3 p ++ [ev, ev] := by
  have hot : deliver_to_own_targets s3 ev = inbox_push (inbox_push s3 p ev) c ev := by
    simp [deliver_to_own_targets, hkind, event_targets]
  have hsubX : (inbox_push (inbox_push s3 p ev) c ev).subscriptions = [] := by
    rw [(inbox_push_fields _ _ _).2.2.2.1, (inbox_push_fields _ _ _).2.2.2.1]
    exact hsubs
  have hds : deliver_to_subscribers (inbox_push (inbox_push s3 p ev) c ev) ev =
      inbox_push (inbox_push s3 p ev) c ev := by
    simp [deliver_to_subscribers, hsubX]
  have hnX : (inbox_push (inbox_push s3 p ev) c ev).nodes = s3.nodes := by
    rw [(inbox_push_fields _ _ _).1, (inbox_push_fields _ _ _).1]
  have hdb : deliver_bubbled (inbox_push (inbox_push s3 p ev) c ev) ev =
      inbox_push (inbox_push (inbox_push s3 p ev) c ev) p ev := by
    simp [deliver_bubbled, hkind, event_bubble_source, hnX, hm, hmp]
  unfold deliver_event
  rw [hot, hds, hdb]
  rw [inbox_of_push_same, inbox_of_push_other _ _ _ _ (Ne.symm hne), inbox_of_push_same]
  simp

/-- Emitting ChildAdded over a state whose child's parent link is the
parent and with no subscriptions pushes the stamped event into the
parent's inbox twice. -/
theorem emit_child_added_inbox (s2 : Engine) (p c : NodeId) (m : Node)
    (hm : alist_get s2.nodes c = some m) (hmp : m.parent = some p)
    (hsubs : s2.subscriptions = []) (hne : c ≠ p) :
    inbox_of (emit_event s2 (EventKind.childAdded p c)) p =
      inbox_of s2 p ++ [(⟨s2.time, EventKind.childAdded p c⟩ : Event),
        (⟨s2.time, EventKind.childAdded p c⟩ : Event)] := by
  simp only [emit_event]
  exact deliver_child_added_inbox _ p c _ m rfl hm hmp hsubs hne

/-- C10 confirmed: every add_child(parent, child) with an existing child
distinct from the parent (and no registered subscriptions, so only the
structural fan-outs are in play) delivers the single emitted ChildAdded
event to the parent's inbox twice: the parent is an own target of
ChildAdded, and the bubble source is the child, whose parent link has
just been set to the parent. -/
theorem c10_child_added_double_delivery (s : Engine) (p c : NodeId) (cn : Node)
    (hc : alist_get s.nodes c = some cn) (hne : c ≠ p)
    (hsubs : s.subscriptions = []) :
    inbox_of (add_child s p c) p =
      inbox_of s p ++ [(⟨s.time, EventKind.childAdded p c⟩ : Event),
        (⟨s.time, EventKind.childAdded p c⟩ : Event)] := by
  obtain ⟨s2, heq, hlog, htime, hinb, hsub2, hpv, hmv, hpar⟩ := add_child_emit_shape s p c
  obtain ⟨m, hm, hmp⟩ := hpar cn hc hne
  rw [heq, emit_child_added_inbox s2 p c m hm hmp (hsub2.trans hsubs) hne]
  unfold inbox_of
  rw [hinb, htime]

/-- C10 witness: re-adding node 2 under the root of c5_engine delivers
the ChildAdded event to the root inbox twice. -/
theorem c10_witness :
    inbox_of (add_child c5_engine 1 2) 1 =
      inbox_of c5_engine 1 ++ [(⟨c5_engine.time, EventKind.childAdded 1 2⟩ : Event),
        (⟨c5_engine.time, EventKind.childAdded 1 2⟩ : Event)] :=
  c10_child_added_double_delivery c5_engine 1 2 _ rfl (by decide) rfl

theorem inbox_push_next_key (s : Engine) (t : NodeId) (e : Event) :
    (inbox_push s t e).next_key = s.next_key := by
  unfold inbox_push
  cases alist_get s.inboxes t <;> rfl

theorem foldl_push_next_key (ts : List NodeId) (e : Event) :
    ∀ s : Engine,
      (ts.foldl (fun acc t => inbox_push acc t e) s).next_key = s.next_key := by
  induction ts with
  | nil => intro s; rfl
  | cons t rest ih =>
    intro s
    simp only [List.foldl]
    rw [ih, inbox_push_next_key]

theorem deliver_own_next_key (s : Engine) (e : Event) :
    (deliver_to_own_targets s e).next_key = s.next_key :=
  foldl_push_next_key (event_targets e.kind) e s

theorem deliver_subscribers_next_key (s : Engine) (e : Event) :
    (deliver_to_subscribers s e).next_key = s.next_key := by
  unfold deliver_to_subscribers
  generalize s.subscriptions = specs
  induction specs generalizing s with
  | nil => rfl
  | cons spec rest ih =>
    simp only [List.foldl]
    by_cases h : matches_filter s.nodes spec.filter e
    · simp only [h, if_pos]
      rw [ih (inbox_push s spec.subscriber e), inbox_push_next_key]
    · simp only [h, if_neg, Bool.false_eq_true, not_false_eq_true]
      exact ih s

theorem deliver_bubbled_next_key (s : Engine) (e : Event) :
    (deliver_bubbled s e).next_key = s.next_key := by
  unfold deliver_bubbled
  cases h1 : event_bubble_source e.kind with
  | none => rfl
  | some src =>
    show (match (alist_get s.nodes src).bind (fun n => n.parent) with
      | Option.none => s
      | Option.some parent => inbox_push s parent e).next_key = s.next_key
    cases h2 : (alist_get s.nodes src).bind (fun n => n.parent) with
    | none => rfl
    | some parent => exact inbox_push_next_key s parent e

theorem deliver_event_next_key (s : Engine) (e : Event) :
    (deliver_event s e).next_key = s.next_key := by
  unfold deliver_event
  rw [deliver_bubbled_next_key, deliver_subscribers_next_key, deliver_own_next_key]

theorem emit_event_next_key (s : Engine) (k : EventKind) :
    (emit_event s k).next_key = s.next_key := by
  unfold emit_event
  rw [deliver_event_next_key]

theorem update_node_next_key (s : Engine) (id : NodeId) (f : Node → Node) :
    (update_node s id f).next_key = s.next_key := by
  unfold update_node
  cases alist_get s.nodes id <;> rfl

theorem alist_get_mem {κ α : Type} [DecidableEq κ] (l : List (κ × α)) (k : κ) (v : α)
    (h : alist_get l k = some v) : (k, v) ∈ l := by
  induction l with
  | nil => simp [alist_get] at h
  | cons head tail ih =>
    obtain ⟨k2, v2⟩ := head
    rw [alist_get] at h
    by_cases hk : k2 = k
    · rw [if_pos hk] at h
      have hv : v2 = v := Option.some.inj h
      subst hk
      subst hv
      exact List.mem_cons_self _ _
    · rw [if_neg hk] at h
      exact List.mem_cons_of_mem _ (ih h)

theorem views_ok_sound (s : Engine) (h : views_ok s = true) : ViewsConsistent s := by
  intro id n hn
  have hmem : (id, n) ∈ s.nodes := alist_get_mem s.nodes id n hn
  unfold views_ok at h
  rw [List.all_eq_true] at h
  have hall := h (id, n) hmem
  simp only at hall
  simp only [hn] at hall
  rw [Bool.and_eq_true] at hall
  obtain ⟨h1, h2⟩ := hall
  constructor
  · intro p hp
    simp only [hp] at h1
    exact of_decide_eq_true h1
  · exact of_decide_eq_true h2

theorem keys_ok_sound (s : Engine) (h : keys_ok s = true) : KeysFresh s := by
  intro id n hn
  have hmem : (id, n) ∈ s.nodes := alist_get_mem s.nodes id n hn
  unfold keys_ok at h
  rw [List.all_eq_true] at h
  have hall := h (id, n) hmem
  simpa using hall

theorem engine_inv_congr {a b : Engine} (hn : b.nodes = a.nodes)
    (hp : b.param_values = a.param_values) (hm : b.meta_values = a.meta_values)
    (hk : b.next_key = a.next_key) (h : EngineInv a) : EngineInv b := by
  obtain ⟨hv, hf⟩ := h
  constructor
  · intro id n hid
    rw [hn] at hid
    rw [hp, hm]
    exact hv id n hid
  · intro id n hid
    rw [hn] at hid
    rw [hk]
    exact hf id n hid

theorem emit_event_inv (s : Engine) (k : EventKind) (h : EngineInv s) :
    EngineInv (emit_event s k) :=
  engine_inv_congr (emit_event_nodes s k) (emit_event_params s k)
    (emit_event_metas s k) (emit_event_next_key s k) h

theorem create_meta_inv (s : Engine) (label : String) (h : EngineInv s) :
    EngineInv (create_meta s label).1 :=
  engine_inv_congr rfl rfl rfl rfl h

theorem update_node_inv (s : Engine) (id : NodeId) (f : Node → Node)
    (hf : ∀ n : Node, (f n).data = n.data ∧ (f n).meta = n.meta)
    (h : EngineInv s) : EngineInv (update_node s id f) := by
  obtain ⟨hv, hk⟩ := h
  cases hc : alist_get s.nodes id with
  | none =>
    rw [update_node_absent s id f hc]
    exact ⟨hv, hk⟩
  | some node =>
    constructor
    · intro j n hj
      rw [update_node_params, update_node_metas]
      by_cases hji : j = id
      · subst hji
        rw [update_node_get_same s j f node hc] at hj
        have hn : n = f node := (Option.some.inj hj).symm
        subst hn
        obtain ⟨hd, hm⟩ := hf node
        have base := hv j node hc
        constructor
        · intro p hp
          rw [hd] at hp
          exact base.1 p hp
        · rw [hm]
          exact base.2
      · rw [update_node_get_other s id j f hji] at hj
        exact hv j n hj
    · intro j n hj
      rw [update_node_next_key]
      by_cases hji : j = id
      · subst hji
        exact hk j node hc
      · rw [update_node_get_other s id j f hji] at hj
        exact hk j n hj

theorem add_child_inv (s : Engine) (p c : NodeId) (h : EngineInv s) :
    EngineInv (add_child s p c) := by
  unfold add_child
  cases hlc : (alist_get s.nodes p).bind (fun n => n.last_child) with
  | none =>
    exact emit_event_inv _ _ (update_node_inv _ _ _ (fun n => ⟨rfl, rfl⟩)
      (update_node_inv _ _ _ (fun n => ⟨rfl, rfl⟩) h))
  | some lc =>
    exact emit_event_inv _ _ (update_node_inv _ _ _ (fun n => ⟨rfl, rfl⟩)
      (update_node_inv _ _ _ (fun n => ⟨rfl, rfl⟩)
        (update_node_inv _ _ _ (fun n => ⟨rfl, rfl⟩) h)))

theorem create_node_base_fields (s : Engine) (nt : String) (ex : NodeExecution)
    (d : NodeData) (m : NodeMeta) (b : Option NodeBehaviour) :
    (create_node_base s nt ex d m b).1.nodes =
      s.nodes ++ [(s.next_key,
        { id := s.next_key, node_type := nt, execution := ex, parent := none,
          first_child := none, last_child := none, prev_sibling := none,
          next_sibling := none, meta := m, data := d, behaviour := b })] ∧
    (create_node_base s nt ex d m b).1.next_key = s.next_key + 1 ∧
    (create_node_base s nt ex d m b).1.meta_values =
      alist_put s.meta_values s.next_key m ∧
    (create_node_base s nt ex d m b).1.param_values =
      (match d with
       | NodeData.parameter q => alist_put s.param_values s.next_key q.value
       | _ => s.param_values) := by
  cases d <;>
    refine ⟨?_, ?_, ?_, ?_⟩ <;>
      simp [create_node_base, emit_event_nodes, emit_event_next_key, emit_event_metas,
        emit_event_params]

theorem create_node_base_inv (s : Engine) (nt : String) (ex : NodeExecution)
    (d : NodeData) (m : NodeMeta) (b : Option NodeBehaviour) (h : EngineInv s) :
    EngineInv (create_node_base s nt ex d m b).1 := by
  obtain ⟨hv, hk⟩ := h
  obtain ⟨hn, hnk, hm, hp⟩ := create_node_base_fields s nt ex d m b
  constructor
  · intro j n hj
    rw [hn, alist_get_append_one] at hj
    rw [hm, hp]
    cases hold : alist_get s.nodes j with
    | some w =>
      simp only [hold] at hj
      have hnw : n = w := (Option.some.inj hj).symm
      subst hnw
      have hlt := hk j n hold
      have hne : j ≠ s.next_key := Nat.ne_of_lt hlt
      have base := hv j n hold
      constructor
      · intro p hp2
        cases d <;>
          simp only [alist_get_put_other _ _ _ _ hne] <;>
          exact base.1 p hp2
      · rw [alist_get_put_other _ _ _ _ hne]
        exact base.2
    | none =>
      simp only [hold] at hj
      by_cases hjk : s.next_key = j
      · rw [if_pos hjk] at hj
        have hn2 := Option.some.inj hj
        subst hjk
        constructor
        · intro p hp2
          have hd : d = NodeData.parameter p := by
            rw [← hn2] at hp2
            exact hp2
          rw [hd]
          exact alist_get_put_same _ _ _
        · rw [← hn2]
          exact alist_get_put_same _ _ _
      · rw [if_neg hjk] at hj
        exact absurd hj (by simp)
  · intro j n hj
    rw [hn, alist_get_append_one] at hj
    rw [hnk]
    cases hold : alist_get s.nodes j with
    | some w =>
      have := hk j w hold
      exact Nat.lt_succ_of_lt this
    | none =>
      simp only [hold] at hj
      by_cases hjk : s.next_key = j
      · subst hjk
        exact Nat.lt_succ_self _
      · rw [if_neg hjk] at hj
        exact absurd hj (by simp)

theorem ensure_folder_path_with_inv (create : CreateFn) (hc : CreatePreserves create) :
    ∀ (segments : List String) (s : Engine) (parent : NodeId) (pfx path : String)
      (label : Option String), EngineInv s →
      EngineInv (ensure_folder_path_with create s parent segments pfx path label).1 := by
  intro segments
  induction segments with
  | nil =>
    intro s parent pfx path label h
    exact h
  | cons seg rest ih =>
    intro s parent pfx path label h
    simp only [ensure_folder_path_with]
    split
    · exact ih _ _ _ _ _ h
    · exact ih _ _ _ _ _
        (add_child_inv _ _ _ (hc _ _ _ _ _ _ (create_meta_inv _ _ h)))

theorem inst_folders_with_inv (create : CreateFn) (hc : CreatePreserves create) :
    ∀ (folders : List FolderDecl) (s : Engine) (parent : NodeId)
      (fns : List (String × NodeId)), EngineInv s →
      EngineInv (inst_folders_with create s parent folders fns).1 := by
  intro folders
  induction folders with
  | nil =>
    intro s parent fns h
    exact h
  | cons folder rest ih =>
    intro s parent fns h
    simp only [inst_folders_with]
    exact ih _ _ _ (ensure_folder_path_with_inv create hc _ _ _ _ _ _ h)

theorem inst_params_with_inv (create : CreateFn) (hc : CreatePreserves create) :
    ∀ (params : List ParamDecl) (s : Engine) (parent : NodeId)
      (fns : List (String × NodeId)), EngineInv s →
      EngineInv (inst_params_with create s parent fns params) := by
  intro params
  induction params with
  | nil =>
    intro s parent fns h
    exact h
  | cons param rest ih =>
    intro s parent fns h
    simp only [inst_params_with]
    exact ih _ _ _
      (add_child_inv _ _ _ (hc _ _ _ _ _ _ (create_meta_inv _ _ h)))

theorem inst_children_with_inv (create : CreateFn) (hc : CreatePreserves create) :
    ∀ (children : List DeclaredChild) (s : Engine) (parent : NodeId), EngineInv s →
      EngineInv (inst_children_with create s parent children) := by
  intro children
  induction children with
  | nil =>
    intro s parent h
    exact h
  | cons child rest ih =>
    intro s parent h
    simp only [inst_children_with]
    split
    · exact ih _ _ h
    · exact ih _ _
        (add_child_inv _ _ _ (hc _ _ _ _ _ _ (create_meta_inv _ _ h)))

theorem instantiate_from_schema_with_inv (create : CreateFn) (hc : CreatePreserves create)
    (s : Engine) (parent : NodeId) (sch : NodeSchema) (h : EngineInv s) :
    EngineInv (instantiate_from_schema_with create s parent sch) := by
  simp only [instantiate_from_schema_with]
  exact inst_children_with_inv create hc _ _ _
    (inst_params_with_inv create hc _ _ _ _
      (inst_folders_with_inv create hc _ _ _ _ h))

theorem create_node_inv : ∀ fuel : Nat, CreatePreserves (create_node fuel) := by
  intro fuel
  induction fuel with
  | zero =>
    intro s nt ex d m b h
    exact create_node_base_inv s nt ex d m b h
  | succ f ih =>
    intro s nt ex d m b h
    simp only [create_node]
    split
    · exact create_node_base_inv s nt ex d m b h
    · exact instantiate_from_schema_with_inv (create_node f) ih _ _ _
        (create_node_base_inv s nt ex d m b h)

theorem apply_set_param_inv (s : Engine) (n : NodeId) (v : Value) (h : EngineInv s) :
    EngineInv (apply_set_param s n v) := by
  cases hn : alist_get s.nodes n with
  | none =>
    rw [apply_set_param_miss_node s n v hn]
    exact h
  | some node =>
    cases hd : node.data with
    | parameter q =>
      cases hcc : (match q.change with
          | ChangePolicy.always => true
          | ChangePolicy.valueChange => !decide (q.value = v)) with
      | false =>
        have hid : apply_set_param s n v = s := by
          cases hqc : q.change with
          | always =>
            rw [hqc] at hcc
            exact absurd hcc (by simp)
          | valueChange =>
            rw [hqc] at hcc
            have heq : q.value = v := by simpa using hcc
            exact apply_set_param_skip s n v node q hn hd hqc heq
        rw [hid]
        exact h
      | true =>
        rw [apply_set_param_hit s n v node q hn hd hcc]
        apply emit_event_inv
        obtain ⟨hv, hk⟩ := h
        constructor
        · intro j nn hj
          replace hj : alist_get (alist_put s.nodes n
              { node with data := NodeData.parameter { q with value := v } }) j =
              some nn := hj
          by_cases hjn : j = n
          · subst hjn
            rw [alist_get_put_same] at hj
            have hnn : nn =
                { node with data := NodeData.parameter { q with value := v } } :=
              (Option.some.inj hj).symm
            subst hnn
            constructor
            · intro p hp
              have hqp : ({ q with value := v } : ParameterData) = p := by
                have hp2 : NodeData.parameter { q with value := v } =
                    NodeData.parameter p := hp
                injection hp2
              show alist_get (alist_put s.param_values j v) j = some p.value
              rw [alist_get_put_same, ← hqp]
            · exact (hv j node hn).2
          · rw [alist_get_put_other _ _ _ _ hjn] at hj
            have base := hv j nn hj
            constructor
            · intro p hp
              show alist_get (alist_put s.param_values n v) j = some p.value
              rw [alist_get_put_other _ _ _ _ hjn]
              exact base.1 p hp
            · exact base.2
        · intro j nn hj
          replace hj : alist_get (alist_put s.nodes n
              { node with data := NodeData.parameter { q with value := v } }) j =
              some nn := hj
          show j < s.next_key
          by_cases hjn : j = n
          · subst hjn
            exact hk j node hn
          · rw [alist_get_put_other _ _ _ _ hjn] at hj
            exact hk j nn hj
    | none =>
      rw [apply_set_param_nonparam s n v node hn (by intro p hp; rw [hd] at hp; cases hp)]
      exact h
    | container c =>
      rw [apply_set_param_nonparam s n v node hn (by intro p hp; rw [hd] at hp; cases hp)]
      exact h
    | custom =>
      rw [apply_set_param_nonparam s n v node hn (by intro p hp; rw [hd] at hp; cases hp)]
      exact h
    | manager m =>
      rw [apply_set_param_nonparam s n v node hn (by intro p hp; rw [hd] at hp; cases hp)]
      exact h

theorem patch_meta_state_inv (s : Engine) (n : NodeId) (node : Node) (m2 : NodeMeta)
    (hn : alist_get s.nodes n = some node) (h : EngineInv s) :
    EngineInv
      { s with
          nodes := alist_put s.nodes n { node with meta := m2 },
          meta_values := alist_put s.meta_values n m2 } := by
  obtain ⟨hv, hk⟩ := h
  constructor
  · intro j nn hj
    replace hj : alist_get (alist_put s.nodes n { node with meta := m2 }) j =
        some nn := hj
    by_cases hjn : j = n
    · subst hjn
      rw [alist_get_put_same] at hj
      have hnn : nn = { node with meta := m2 } := (Option.some.inj hj).symm
      subst hnn
      constructor
      · intro p hp
        have hp2 : node.data = NodeData.parameter p := hp
        exact (hv j node hn).1 p hp2
      · show alist_get (alist_put s.meta_values j m2) j = some m2
        exact alist_get_put_same _ _ _
    · rw [alist_get_put_other _ _ _ _ hjn] at hj
      have base := hv j nn hj
      constructor
      · intro p hp
        exact base.1 p hp
      · show alist_get (alist_put s.meta_values n m2) j = some nn.meta
        rw [alist_get_put_other _ _ _ _ hjn]
        exact base.2
  · intro j nn hj
    replace hj : alist_get (alist_put s.nodes n { node with meta := m2 }) j =
        some nn := hj
    show j < s.next_key
    by_cases hjn : j = n
    · subst hjn
      exact hk j node hn
    · rw [alist_get_put_other _ _ _ _ hjn] at hj
      exact hk j nn hj

theorem take_inbox_fst_inv (s : Engine) (id : NodeId) (h : EngineInv s) :
    EngineInv (take_inbox s id).1 := by
  unfold take_inbox
  cases alist_get s.inboxes id with
  | none => exact h
  | some events => exact engine_inv_congr rfl rfl rfl rfl h

theorem instantiate_child_from_manager_inv (fuel : Nat) (s : Engine) (mgr : NodeId)
    (nt label : String) (ex : NodeExecution) (h : EngineInv s) :
    EngineInv (instantiate_child_from_manager fuel s mgr nt label ex).1 := by
  simp only [instantiate_child_from_manager]
  split
  · exact h
  · split
    · split
      · exact h
      · exact update_node_inv _ _ _ (fun n => ⟨rfl, rfl⟩)
          (instantiate_from_schema_with_inv (create_node fuel) (create_node_inv fuel)
            _ _ _
            (add_child_inv _ _ _
              (create_node_inv fuel _ _ _ _ _ _ (create_meta_inv _ _ h))))
    · exact h

theorem edit_loop_inv :
    ∀ fuel : Nat,
      (∀ (s : Engine) (edits : List EditRequest), EngineInv s →
        EngineInv (apply_edit_requests fuel s edits)) ∧
      (∀ s : Engine, EngineInv s → EngineInv (flush_immediate fuel s)) ∧
      (∀ (phase : EnginePhase) (s : Engine) (order : List NodeId), EngineInv s →
        EngineInv (process_pending_order fuel phase s order)) := by
  intro fuel
  induction fuel with
  | zero =>
    refine ⟨?_, ?_, ?_⟩
    · intro s edits h
      cases edits with
      | nil => exact h
      | cons req rest => exact h
    · intro s h
      exact engine_inv_congr rfl rfl rfl rfl h
    · intro phase s order h
      cases order with
      | nil => exact h
      | cons nid rest => exact h
  | succ f ih =>
    obtain ⟨iha, ihf, ihp⟩ := ih
    refine ⟨?_, ?_, ?_⟩
    · intro s edits h
      cases edits with
      | nil => exact h
      | cons req rest =>
        have hcont : ∀ s2 : Engine, EngineInv s2 →
            EngineInv (apply_edit_requests f
              (if req.propagation = Propagation.immediate then flush_immediate f s2
               else s2) rest) := by
          intro s2 h2
          by_cases hpr : req.propagation = Propagation.immediate
          · rw [if_pos hpr]
            exact iha _ _ (ihf _ h2)
          · rw [if_neg hpr]
            exact iha _ _ h2
        cases hre : req.edit with
        | setParam n v =>
          simp only [apply_edit_requests, hre]
          exact hcont _ (apply_set_param_inv s n v h)
        | patchMeta n patch =>
          simp only [apply_edit_requests, hre]
          cases hn : alist_get s.nodes n with
          | none =>
            simp only [hn]
            exact hcont _ h
          | some node_ref =>
            simp only [hn]
            exact hcont _ (emit_event_inv _ _
              (patch_meta_state_inv s n node_ref (apply_patch node_ref.meta patch) hn h))
        | instantiateChildFromManager mgr nt label ex =>
          simp only [apply_edit_requests, hre]
          exact hcont _ (instantiate_child_from_manager_inv f s mgr nt label ex h)
    · intro s h
      simp only [flush_immediate]
      exact ihp _ _ _ (engine_inv_congr rfl rfl rfl rfl h)
    · intro phase s order h
      cases order with
      | nil => exact h
      | cons nid rest =>
        simp only [process_pending_order]
        exact ihp _ _ _ (iha _ _ (take_inbox_fst_inv s nid h))

/-- C9 confirmed: the shared read views handed to behaviours stay
consistent with the store under every engine operation. Assuming the
store invariant — every Parameter node's id maps in param_values to the
parameter's current value, every live node's id maps in meta_values to
its current metadata, and live keys are below the slotmap's next-key
counter — the invariant is preserved by create_node (at any fuel, so
including its recursive auto-instantiation), by set_param as applied
through apply_set_param, by whole apply_edit_requests drains (including
nested immediate flushes and reactive process rounds), by
auto-instantiation from a schema, and by manager instantiation. -/
theorem c9_read_view_consistency (fuel : Nat) (s : Engine) (h : EngineInv s) :
    (∀ (nt : String) (ex : NodeExecution) (d : NodeData) (m : NodeMeta)
        (b : Option NodeBehaviour),
      EngineInv (create_node fuel s nt ex d m b).1) ∧
    (∀ (n : NodeId) (v : Value), EngineInv (apply_set_param s n v)) ∧
    (∀ edits : List EditRequest, EngineInv (apply_edit_requests fuel s edits)) ∧
    (∀ (parent : NodeId) (sch : NodeSchema),
      EngineInv (instantiate_declared_children_from_schema fuel s parent sch)) ∧
    (∀ (mgr : NodeId) (nt label : String) (ex : NodeExecution),
      EngineInv (instantiate_child_from_manager fuel s mgr nt label ex).1) := by
  refine ⟨?_, ?_, ?_, ?_, ?_⟩
  · intro nt ex d m b
    exact create_node_inv fuel s nt ex d m b h
  · intro n v
    exact apply_set_param_inv s n v h
  · intro edits
    exact (edit_loop_inv fuel).1 s edits h
  · intro parent sch
    simp only [instantiate_declared_children_from_schema]
    exact instantiate_from_schema_with_inv (create_node fuel) (create_node_inv fuel)
      s parent sch h
  · intro mgr nt label ex
    exact instantiate_child_from_manager_inv fuel s mgr nt label ex h

/-- C9 witness: the fresh engine satisfies the store invariant
concretely, and the theorem transports it through a parameter write and
an edit drain. -/
theorem c9_witness :
    EngineInv (Engine.new 2) ∧
    EngineInv (apply_set_param (Engine.new 2) 1 (Value.int 3)) ∧
    EngineInv (apply_edit_requests 4 (Engine.new 2)
      [{ edit := Edit.setParam 1 (Value.int 3), propagation := Propagation.endOfTick,
         origin := EditOrigin.ui }]) :=
  have h : EngineInv (Engine.new 2) :=
    ⟨views_ok_sound _ (by decide), keys_ok_sound _ (by decide)⟩
  ⟨h, (c9_read_view_consistency 4 (Engine.new 2) h).2.1 1 (Value.int 3),
    (c9_read_view_consistency 4 (Engine.new 2) h).2.2.1 _⟩
